import Mathlib

/-!
Verification of the Nodealigner core against its specification.

The Rust sources (`src/io_stream.rs`, `src/header.rs`) are shallowly embedded
here.  Strings are modelled as `List Char` (for ASCII data a byte index in the
Rust code coincides with a character index, and an ASCII pattern such as
"chr" can never start inside the UTF-8 encoding of a non-ASCII character, so
`find`/`rfind`/slicing translate to list operations).  Rust `u64`/`i64`
values are modelled as `Nat`/`Int` with explicit bounds where overflow or
saturation matters.  `HashMap` values are modelled as association lists with
insert-at-front / first-match-wins lookup, which realises the overwrite
semantics of `HashMap::insert`.
-/

abbrev Str := List Char

/-- `char::to_ascii_lowercase`. -/
def asciiLower (c : Char) : Char :=
  if 'A' ≤ c ∧ c ≤ 'Z' then Char.ofNat (c.toNat + 32) else c

/-- `char::to_ascii_uppercase`. -/
def asciiUpper (c : Char) : Char :=
  if 'a' ≤ c ∧ c ≤ 'z' then Char.ofNat (c.toNat - 32) else c

/-- The Unicode `White_Space` code points, as used by Rust's `str::trim`. -/
def isRustWS (c : Char) : Bool :=
  c.toNat ∈ [0x9, 0xA, 0xB, 0xC, 0xD, 0x20, 0x85, 0xA0, 0x1680,
    0x2000, 0x2001, 0x2002, 0x2003, 0x2004, 0x2005, 0x2006, 0x2007,
    0x2008, 0x2009, 0x200A, 0x2028, 0x2029, 0x202F, 0x205F, 0x3000]

/-- `str::trim_end`. -/
def rustTrimEnd (l : Str) : Str := (l.reverse.dropWhile isRustWS).reverse

/-- `str::trim`. -/
def rustTrim (l : Str) : Str := (l.dropWhile isRustWS |>.reverse.dropWhile isRustWS).reverse

/-- `line.split('\t')` (n separators yield n+1 parts; the empty string yields one empty part). -/
def splitTab (l : Str) : List Str := l.splitOn '\t'

/-- `out_fields.join("\t")`. -/
def joinTab (fs : List Str) : Str := List.intercalate ['\t'] fs

/-- `s.split(c)` for an arbitrary separator character. -/
def splitChar (c : Char) (l : Str) : List Str := l.splitOn c

/-- `line.starts_with(c)` for a single character. -/
def startsWithChar (l : Str) (c : Char) : Bool :=
  match l with
  | [] => false
  | x :: _ => x = c

/-- `s.starts_with(pat)` for a string pattern. -/
def startsWithStr (l : Str) (pat : Str) : Bool := pat.isPrefixOf l

/-- `haystack.contains(needle)` (substring containment). -/
def containsSub (hay pat : Str) : Bool :=
  (List.range (hay.length + 1)).any (fun i => pat.isPrefixOf (hay.drop i))

/-- `str::find(pat)`: index of the first occurrence of `pat`, if any. -/
def findSub (hay pat : Str) : Option Nat :=
  ((List.range (hay.length + 1)).filter (fun i => pat.isPrefixOf (hay.drop i))).head?

/-- `str::rfind(pat)`: index of the last occurrence of `pat`, if any. -/
def rfindSub (hay pat : Str) : Option Nat :=
  ((List.range (hay.length + 1)).filter (fun i => pat.isPrefixOf (hay.drop i))).getLast?

/-- Value of a nonempty all-digit string, `none` otherwise. -/
def parseDigits (cs : Str) : Option Nat :=
  if cs ≠ [] ∧ cs.all Char.isDigit then
    some (cs.foldl (fun a c => a * 10 + (c.toNat - 48)) 0)
  else none

/-- Rust `str::parse::<u64>()`: optional leading `+`, a nonempty digit run, value below 2^64. -/
def parseU64 (cs : Str) : Option Nat :=
  let body := match cs with
    | '+' :: rest => rest
    | other => other
  match parseDigits body with
  | some n => if n < 18446744073709551616 then some n else none
  | none => none

/-- Rust `str::parse::<u32>()`. -/
def parseU32 (cs : Str) : Option Nat :=
  let body := match cs with
    | '+' :: rest => rest
    | other => other
  match parseDigits body with
  | some n => if n < 4294967296 then some n else none
  | none => none

/-- Rust `str::parse::<u8>()`. -/
def parseU8 (cs : Str) : Option Nat :=
  let body := match cs with
    | '+' :: rest => rest
    | other => other
  match parseDigits body with
  | some n => if n < 256 then some n else none
  | none => none

/-- Rust `str::parse::<i64>()`: optional sign, digits, value within the i64 range. -/
def parseI64 (cs : Str) : Option Int :=
  match cs with
  | '+' :: rest => (parseDigits rest).bind fun n =>
      if (n : Int) ≤ 9223372036854775807 then some (n : Int) else none
  | '-' :: rest => (parseDigits rest).bind fun n =>
      if (n : Int) ≤ 9223372036854775808 then some (-(n : Int)) else none
  | other => (parseDigits other).bind fun n =>
      if (n : Int) ≤ 9223372036854775807 then some (n : Int) else none

/-- Recognizer for Rust `str::parse::<f64>()`: optional sign, then `inf`,
`infinity` or `nan` (case-insensitive), or a decimal mantissa with at least one
digit and at most one dot, optionally followed by an exponent. -/
def isF64 (cs : Str) : Bool :=
  let body := match cs with
    | '+' :: rest => rest
    | '-' :: rest => rest
    | other => other
  let low := body.map asciiLower
  if low = ('i' :: 'n' :: 'f' :: []) ∨
     low = ('i' :: 'n' :: 'f' :: 'i' :: 'n' :: 'i' :: 't' :: 'y' :: []) ∨
     low = ('n' :: 'a' :: 'n' :: []) then
    true
  else
    let mantissa := body.takeWhile (fun c => ¬ (c = 'e' ∨ c = 'E'))
    let rest := body.drop mantissa.length
    let mantOk : Bool := mantissa.any Char.isDigit &&
      mantissa.all (fun c => Char.isDigit c || decide (c = '.')) &&
      decide ((mantissa.filter (fun c => decide (c = '.'))).length ≤ 1)
    let expOk : Bool := match rest with
      | [] => true
      | _ :: tail => match tail with
        | '+' :: ds => (!ds.isEmpty) && ds.all Char.isDigit
        | '-' :: ds => (!ds.isEmpty) && ds.all Char.isDigit
        | ds => (!ds.isEmpty) && ds.all Char.isDigit
    mantOk && expOk

/-- Decimal digits of `n`, fuelled (the fuel is only consumed once per digit). -/
def toDecimalAux : Nat → Nat → Str
  | 0, _ => []
  | fuel + 1, n =>
    if n < 10 then [Nat.digitChar n]
    else toDecimalAux fuel (n / 10) ++ [Nat.digitChar (n % 10)]

/-- `u64::to_string` (decimal, no sign). -/
def natToStr (n : Nat) : Str := toDecimalAux (n + 1) n

/-- Association-list lookup (first match), modelling `HashMap::get`. -/
def lookupA {α : Type} (m : List (Nat × α)) (k : Nat) : Option α :=
  match m with
  | [] => none
  | (k', v) :: rest => if k' = k then some v else lookupA rest k

/-- `HashMap::insert` (overwrite): insert at the front, `lookupA` finds the newest. -/
def insertA {α : Type} (m : List (Nat × α)) (k : Nat) (v : α) : List (Nat × α) :=
  (k, v) :: m

/-! ## Embedding of `src/io_stream.rs` -/

namespace IoStream

/-- `StreamStats` (src/io_stream.rs): streaming counters of the rewriter. -/
structure StreamStats where
  total : Nat := 0
  replaced : Nat := 0
  skipped : Nat := 0
  unmapped : Nat := 0
  replaced_chrom : Nat := 0
  replaced_pos : Nat := 0
  replaced_id : Nat := 0
  replaced_ref : Nat := 0
  missing_start : Nat := 0
  missing_seq : Nat := 0
  used_ref_map : Nat := 0
  used_aln_map : Nat := 0
deriving DecidableEq, Repr

instance : Inhabited StreamStats := ⟨{}⟩

/-- `AlnInfo` (src/io_stream.rs): one alignment row. `distance` is an `i64`,
`position` a `u64`. -/
structure AlnInfo where
  path : Str := []
  distance : Int := 0
  position : Nat := 0
deriving DecidableEq, Repr

/-- The part of the `gfa_reader::Gfa` interface the rewriter uses: an index
range and a sequence accessor keyed by `u32` node id. -/
structure Gfa where
  indexLow : Nat
  indexHigh : Nat
  seq : Nat → Str

/-- `should_skip_chrom`: case-sensitive substring match against the skip set. -/
def should_skip_chrom (chrom : Str) (skip : List Str) : Bool :=
  if skip.isEmpty then false
  else skip.any (fun k => (!k.isEmpty) && containsSub chrom k)

/-- `parse_node_id_from_chrom`: a pure integer, else the last continuous digit
run (scanning from the right), parsed as `u64`. -/
def parse_node_id_from_chrom (chrom : Str) : Option Nat :=
  match parseU64 chrom with
  | some v => some v
  | none =>
    let digits := (chrom.reverse.dropWhile (fun c => !c.isDigit)).takeWhile Char.isDigit
    if digits.isEmpty then none
    else parseU64 digits.reverse

/-- `extract_chr_token` (src/io_stream.rs): anchors on the **last**
case-insensitive occurrence of "chr"; the token is the following run of
digits / X / Y / M, uppercased.  Returns (token?, has_suffix, found_chr).
`has_suffix` is a byte-length comparison in Rust; every captured token
character is one ASCII byte, so it equals the character-count comparison. -/
def extract_chr_token (raw : Str) : Option Str × Bool × Bool :=
  let lower := raw.map asciiLower
  match rfindSub lower ('c' :: 'h' :: 'r' :: []) with
  | none => (none, false, false)
  | some idx =>
    let tail := raw.drop (idx + 3)
    let token := (tail.takeWhile (fun ch =>
      let c := asciiUpper ch
      c.isDigit || decide (c = 'X') || decide (c = 'Y') || decide (c = 'M'))).map asciiUpper
    if token.isEmpty then (none, !tail.isEmpty, true)
    else (some token, decide (token.length < tail.length), true)

/-- `is_std_human_chr_token` (src/io_stream.rs): X/Y/M or an all-digit token
whose `u32` value lies in 1..=22. -/
def is_std_human_chr_token (t : Str) : Bool :=
  if t = ('X' :: []) ∨ t = ('Y' :: []) ∨ t = ('M' :: []) then true
  else
    t.all Char.isDigit &&
      (match parseU32 t with
       | some n => decide (1 ≤ n ∧ n ≤ 22)
       | none => false)

/-- `apply_ignore_rules` (src/io_stream.rs): the six-level policy of the
streaming rewriter; unrecognized levels keep the string unchanged. -/
def apply_ignore_rules (raw : Str) (level : Nat) : Option Str :=
  match level with
  | 0 => some raw
  | 1 => if containsSub (raw.map asciiLower) ('c' :: 'h' :: 'r' :: []) then some raw else none
  | 2 =>
    let (tokOpt, _hasSuffix, foundChr) := extract_chr_token raw
    if !foundChr then none
    else match tokOpt with
      | some t =>
        if (t = ('X' :: []) ∨ t = ('Y' :: []) ∨ t = ('M' :: [])) ∨ t.all Char.isDigit
        then some raw else none
      | none => none
  | 3 =>
    let (tokOpt, hasSuffix, foundChr) := extract_chr_token raw
    if !foundChr then none
    else if tokOpt.isNone then none
    else if hasSuffix then none
    else some raw
  | 4 =>
    let (tokOpt, _hasSuffix, foundChr) := extract_chr_token raw
    if !foundChr then none
    else match tokOpt with
      | some t => if is_std_human_chr_token t then some (('c' :: 'h' :: 'r' :: []) ++ t) else none
      | none => none
  | 5 =>
    let (tokOpt, _hasSuffix, foundChr) := extract_chr_token raw
    if !foundChr then none
    else match tokOpt with
      | some t => if is_std_human_chr_token t then some t else none
      | none => none
  | _ => some raw

/-- The full environment of one `stream_replace_chrom_to_tmp` run: the three
`OnceLock` reference tables, the alignment map, the skip set, the ignore
level and the optional graph accessor. -/
structure Env where
  refPath : List (Nat × Str) := []
  refStart : List (Nat × Nat) := []
  refSeq : List (Nat × Str) := []
  node2aln : List (Nat × AlnInfo) := []
  skip : List Str := []
  level : Nat := 0
  gfa : Option Gfa := none

/-- u64 `saturating_add`. -/
def satAdd64 (a b : Nat) : Nat := min (a + b) 18446744073709551615

/-- The `if let Some(g) = gfa { .. }` block writing REF from the graph
(src/io_stream.rs lines 341-350).  `node_id as u32` truncates mod 2^32. -/
def gfaRefStep (env : Env) (nodeId : Nat) (st : StreamStats) (outFields : List Str) :
    List Str × StreamStats :=
  match env.gfa with
  | some g =>
    let nid32 := nodeId % 4294967296
    if g.indexLow ≤ nid32 ∧ nid32 ≤ g.indexHigh then
      if 4 ≤ outFields.length then
        (outFields.set 3 (g.seq nid32), { st with replaced_ref := st.replaced_ref + 1 })
      else (outFields, st)
    else (outFields, st)
  | none => (outFields, st)

/-- The `if !ref_set { .. }` block (src/io_stream.rs lines 351-360).  In the
source `ref_set` is declared `let ref_set = false;` and never reassigned, so
this block runs unconditionally, after the graph block. -/
def refSeqStep (seqFromRef : Option Str) (st : StreamStats) (outFields : List Str) :
    List Str × StreamStats :=
  match seqFromRef with
  | some sq =>
    if 4 ≤ outFields.length then
      (outFields.set 3 sq, { st with replaced_ref := st.replaced_ref + 1 })
    else (outFields, st)
  | none => (outFields, { st with missing_seq := st.missing_seq + 1 })

/-- New POS from an alignment record (src/io_stream.rs lines 370-379). -/
def newPosOf (a : AlnInfo) : Nat :=
  if a.distance > 1000000000 then a.position
  else
    let offset : Nat := if a.distance ≥ -1 then (a.distance + 1).toNat else 0
    satAdd64 offset a.position

/-- The `if let Some(a) = aln_info { .. }` POS block (lines 364-386).
Returns (fields, stats, pos_set). -/
def posAlnStep (alnInfo : Option AlnInfo) (st : StreamStats) (outFields : List Str) :
    List Str × StreamStats × Bool :=
  match alnInfo with
  | some a =>
    let newPos := newPosOf a
    let q :=
      if 2 ≤ outFields.length then
        (outFields.set 1 (natToStr newPos), { st with replaced_pos := st.replaced_pos + 1 }, true)
      else (outFields, st, false)
    (q.1, { q.2.1 with used_aln_map := q.2.1.used_aln_map + 1 }, q.2.2)
  | none => (outFields, st, false)

/-- The `if !pos_set { .. }` reference-start fallback (lines 387-396). -/
def posStartStep (env : Env) (nodeId : Nat) (st : StreamStats) (outFields : List Str)
    (posSet : Bool) : List Str × StreamStats × Bool :=
  if posSet then (outFields, st, posSet)
  else
    match lookupA env.refStart nodeId with
    | some startVal =>
      let q :=
        if 2 ≤ outFields.length then
          (outFields.set 1 (natToStr startVal), { st with replaced_pos := st.replaced_pos + 1 }, true)
        else (outFields, st, false)
      (q.1, { q.2.1 with used_ref_map := q.2.1.used_ref_map + 1 }, q.2.2)
    | none => (outFields, st, false)

/-- The save-original-POS-into-ID block (lines 330-334). -/
def idStep (st : StreamStats) (outFields : List Str) : List Str × StreamStats :=
  if 3 ≤ outFields.length then
    (outFields.set 2 (outFields.getD 1 []), { st with replaced_id := st.replaced_id + 1 })
  else (outFields, st)

/-- The CHROM write (lines 336-337). -/
def chromStep (normChr : Str) (st : StreamStats) (outFields : List Str) :
    List Str × StreamStats :=
  (outFields.set 0 normChr, { st with replaced_chrom := st.replaced_chrom + 1 })

/-- The replaced branch (lines 326-401): path found and normalization passed.
Returns the updated stats and the `out_fields` that get joined with tabs. -/
def replacedBranch (env : Env) (st : StreamStats) (fields : List Str) (normChr : Str)
    (nodeId : Nat) (seqFromRef : Option Str) (alnInfo : Option AlnInfo) :
    StreamStats × List Str :=
  let p1 := idStep st fields
  let p2 := chromStep normChr p1.2 p1.1
  let p3 := gfaRefStep env nodeId p2.2 p2.1
  let p4 := refSeqStep seqFromRef p3.2 p3.1
  let p5 := posAlnStep alnInfo p4.2 p4.1
  let p6 := posStartStep env nodeId p5.2.1 p5.1 p5.2.2
  let stF := if p6.2.2 then p6.2.1 else { p6.2.1 with missing_start := p6.2.1.missing_start + 1 }
  ({ stF with replaced := stF.replaced + 1 }, p6.1)

/-- The `if !wrote { .. }` fallthrough (lines 409-425): normalize the raw
CHROM, emit as unmapped or drop as skipped. -/
def unmappedBranch (env : Env) (st : StreamStats) (fields : List Str) :
    StreamStats × Option Str :=
  match apply_ignore_rules (fields.getD 0 []) env.level with
  | some normChr =>
    ({ st with unmapped := st.unmapped + 1 }, some (joinTab (normChr :: fields.tail)))
  | none => ({ st with skipped := st.skipped + 1 }, none)

/-- One iteration of the line loop of `stream_replace_chrom_to_tmp`
(lines 283-426).  Returns the updated stats and the line written to the
output, if any. -/
def stepLine (env : Env) (st : StreamStats) (line : Str) : StreamStats × Option Str :=
  if startsWithChar line '#' then (st, some line)
  else
    let fields := splitTab line
    if fields.length < 2 then (st, none)
    else
      let rawChrom := fields.getD 0 []
      let skipNow := should_skip_chrom rawChrom env.skip
      let chromNodeId := parse_node_id_from_chrom rawChrom
      let posNodeId :=
        if chromNodeId.isNone then parseU64 (rustTrim (fields.getD 1 [])) else none
      let nodeIdOpt := chromNodeId.or posNodeId
      if skipNow then ({ st with skipped := st.skipped + 1 }, none)
      else
        let st := { st with total := st.total + 1 }
        match nodeIdOpt with
        | some nodeId =>
          let pathFromRef := lookupA env.refPath nodeId
          let seqFromRef := lookupA env.refSeq nodeId
          let alnInfo := lookupA env.node2aln nodeId
          let chosenPath := (alnInfo.map AlnInfo.path).or pathFromRef
          match chosenPath with
          | some pathVal =>
            match apply_ignore_rules pathVal env.level with
            | some normChr =>
              let (st, outFields) :=
                replacedBranch env st fields normChr nodeId seqFromRef alnInfo
              (st, some (joinTab outFields))
            | none => ({ st with skipped := st.skipped + 1 }, none)
          | none => unmappedBranch env st fields
        | none => unmappedBranch env st fields

/-- The whole streaming pass: fold `stepLine` over the input lines,
collecting the counters and the emitted lines. -/
def streamRun (env : Env) (lines : List Str) : StreamStats × List Str :=
  lines.foldl
    (fun acc l =>
      ((stepLine env acc.1 l).1,
        match (stepLine env acc.1 l).2 with
        | some o => acc.2 ++ [o]
        | none => acc.2))
    ({}, [])

end IoStream

/-! ## Embedding of `src/header.rs` -/

namespace Header

/-- `extract_chr_token` (src/header.rs): anchors on the **first**
case-insensitive occurrence of "chr"; the token is the following run of
ASCII alphanumerics, kept as-is when all digits and uppercased otherwise.
`has_suffix` is set exactly when the scan hit a non-alphanumeric character,
i.e. when the alphanumeric run does not exhaust the tail. -/
def extract_chr_token (raw : Str) : Option Str × Bool × Bool :=
  let rawLower := raw.map asciiLower
  match findSub rawLower ('c' :: 'h' :: 'r' :: []) with
  | none => (none, false, false)
  | some idx =>
    let after := raw.drop (idx + 3)
    let token := after.takeWhile Char.isAlphanum
    let hasSuffix := decide (token.length < after.length)
    if token.isEmpty then (none, hasSuffix, true)
    else
      let tokNorm := if token.all Char.isDigit then token else token.map asciiUpper
      (some tokNorm, hasSuffix, true)

/-- `is_std_human_chr_token` (src/header.rs): uppercases, then X/Y/M or a
`u8`-parsed value in 1..=22. -/
def is_std_human_chr_token (tok : Str) : Bool :=
  let up := tok.map asciiUpper
  if up = ('X' :: []) ∨ up = ('Y' :: []) ∨ up = ('M' :: []) then true
  else match parseU8 up with
    | some n => decide (1 ≤ n ∧ n ≤ 22)
    | none => false

/-- `apply_ignore_rules` (src/header.rs): the contig-name policy of the
header inference engine. -/
def apply_ignore_rules (raw : Str) (level : Nat) : Option Str :=
  match level with
  | 0 => some raw
  | 1 => if containsSub (raw.map asciiLower) ('c' :: 'h' :: 'r' :: []) then some raw else none
  | 2 =>
    let (tokOpt, _hasSuffix, foundChr) := extract_chr_token raw
    if !foundChr then none
    else match tokOpt with
      | some t =>
        if (t = ('X' :: []) ∨ t = ('Y' :: []) ∨ t = ('M' :: [])) ∨ t.all Char.isDigit
        then some raw else none
      | none => none
  | 3 =>
    let (tokOpt, hasSuffix, foundChr) := extract_chr_token raw
    if !foundChr then none
    else if tokOpt.isNone then none
    else if hasSuffix then none
    else some raw
  | 4 =>
    let (tokOpt, _hasSuffix, foundChr) := extract_chr_token raw
    if !foundChr then none
    else match tokOpt with
      | some t =>
        if is_std_human_chr_token t then some (('c' :: 'h' :: 'r' :: []) ++ t.map asciiUpper)
        else none
      | none => none
  | 5 =>
    let (tokOpt, _hasSuffix, foundChr) := extract_chr_token raw
    if !foundChr then none
    else match tokOpt with
      | some t => if is_std_human_chr_token t then some (t.map asciiUpper) else none
      | none => none
  | _ => some raw

/-- `ValKind` (src/header.rs). -/
inductive ValKind where
  | Int
  | Float
  | Stringy
deriving DecidableEq, Repr

/-- `KeyStats` (src/header.rs): per-INFO-key statistics. -/
structure KeyStats where
  seen_as_flag : Bool
  all_int : Bool
  any_float : Bool
  all_singleton : Bool
  matches_a : Nat
  matches_r : Nat
  samples : Nat
deriving DecidableEq, Repr

/-- `KeyStats::default`. -/
def KeyStats.default : KeyStats :=
  { seen_as_flag := false
    all_int := true
    any_float := false
    all_singleton := true
    matches_a := 0
    matches_r := 0
    samples := 0 }

instance : Inhabited KeyStats := ⟨KeyStats.default⟩

/-- `classify_value_token` (src/header.rs). -/
def classify_value_token (tok : Str) : ValKind :=
  if tok.isEmpty then .Stringy
  else if (parseI64 tok).isSome then .Int
  else if isF64 tok then .Float
  else .Stringy

/-- `merge_keystats` (src/header.rs): OR/AND the booleans, sum the counters. -/
def merge_keystats (a : KeyStats) (b : KeyStats) : KeyStats :=
  { seen_as_flag := a.seen_as_flag || b.seen_as_flag
    all_int := a.all_int && b.all_int
    any_float := a.any_float || b.any_float
    all_singleton := a.all_singleton && b.all_singleton
    matches_a := a.matches_a + b.matches_a
    matches_r := a.matches_r + b.matches_r
    samples := a.samples + b.samples }

/-- The `Type` string chosen by `infer_info_def_with_empty` (src/header.rs
lines 215-223). -/
def infoTyp (ks : KeyStats) : Str :=
  if ks.seen_as_flag then ('F' :: 'l' :: 'a' :: 'g' :: [])
  else if ks.all_int && !ks.any_float then
    ('I' :: 'n' :: 't' :: 'e' :: 'g' :: 'e' :: 'r' :: [])
  else if ks.any_float then ('F' :: 'l' :: 'o' :: 'a' :: 't' :: [])
  else ('S' :: 't' :: 'r' :: 'i' :: 'n' :: 'g' :: [])

/-- The `Number` string chosen by `infer_info_def_with_empty` (lines 226-236). -/
def infoNumber (ks : KeyStats) : Str :=
  if ks.seen_as_flag then ('0' :: [])
  else if ks.matches_a * 2 ≥ ks.samples ∧ ks.samples > 0 then ('A' :: [])
  else if ks.matches_r * 2 ≥ ks.samples ∧ ks.samples > 0 then ('R' :: [])
  else if ks.all_singleton then ('1' :: [])
  else ('.' :: [])

/-- `infer_info_def_with_empty` (src/header.rs): the synthesized `##INFO`
header line for one key. -/
def infer_info_def_with_empty (id : Str) (ks : KeyStats) (allowEmpty : Bool) : Str :=
  let typ := infoTyp ks
  let number := infoNumber ks
  let desc : Str :=
    if allowEmpty && decide (ks.samples = 0) then []
    else if allowEmpty && decide (typ = ([] : Str)) then []
    else ("Inferred from body").data
  if allowEmpty && desc.isEmpty then
    ("##INFO=<ID=").data ++ id ++ (",Number=").data ++ number ++
      (",Type=").data ++ typ ++ (",Description=\"\">").data
  else
    ("##INFO=<ID=").data ++ id ++ (",Number=").data ++ number ++
      (",Type=").data ++ typ ++ (",Description=\"").data ++ desc ++ ("\">").data

/-- ALT count of a data line (src/header.rs lines 384-386): the number of
nonempty comma-separated entries of field 4. -/
def altCtOf (fields : List Str) : Nat :=
  ((splitChar ',' (fields.getD 4 [])).filter (fun x => !x.isEmpty)).length

/-- `item.split_once('=')`: split at the first `=`, if any. -/
def splitOnceEq (item : Str) : Option (Str × Str) :=
  let k := item.takeWhile (fun c => c ≠ '=')
  if k.length < item.length then some (k, item.drop (k.length + 1)) else none

/-- The per-value classification update of the INFO loop (src/header.rs
lines 400-406). -/
def valStep (ks : KeyStats) (vv : Str) : KeyStats :=
  match classify_value_token vv with
  | .Int => ks
  | .Float => { ks with any_float := true, all_int := false }
  | .Stringy => { ks with all_int := false }

/-- The INFO-item loop body of `infer_from_blocks_parallel` (src/header.rs
lines 390-413), projected onto one key `k`: how one `;`-separated item of one
data line updates that key's `KeyStats`. -/
def itemStep (k : Str) (altCt : Nat) (ks : KeyStats) (item : Str) : KeyStats :=
  if item.isEmpty then ks
  else match splitOnceEq item with
    | some (ki, v) =>
      if ki = k then
        let ks := { ks with samples := ks.samples + 1 }
        if v.isEmpty then ks
        else
          let vals := splitChar ',' v
          let ks := { ks with all_singleton := ks.all_singleton && decide (vals.length = 1) }
          let ks := if vals.length = altCt then { ks with matches_a := ks.matches_a + 1 } else ks
          let ks := if vals.length = altCt + 1 then { ks with matches_r := ks.matches_r + 1 } else ks
          vals.foldl valStep ks
      else ks
    | none =>
      if item = k then { ks with samples := ks.samples + 1, seen_as_flag := true } else ks

/-- Line validation of the inference loop (src/header.rs lines 378-383): trim
the end, skip empty and comment lines and lines with fewer than 8 fields. -/
def validFields (line : Str) : Option (List Str) :=
  let trimmed := rustTrimEnd line
  if trimmed.isEmpty || startsWithChar trimmed '#' then none
  else
    let fields := splitTab trimmed
    if fields.length < 8 then none else some fields

/-- How one body line updates the `KeyStats` of key `k` (the per-key
projection of the `info_map` update of `infer_from_blocks_parallel`). -/
def lineStep (k : Str) (ks : KeyStats) (line : Str) : KeyStats :=
  match validFields line with
  | none => ks
  | some fields =>
    (splitChar ';' (fields.getD 7 [])).foldl (itemStep k (altCtOf fields)) ks

/-- The sequential single-pass statistics of key `k` over a list of body
lines. -/
def infoStats (lines : List Str) (k : Str) : KeyStats :=
  lines.foldl (lineStep k) KeyStats.default

end Header

namespace Header

/-- `contigs.entry(path).and_modify(|m| *m = (*m).max(end)).or_insert(end)`:
association-list update keyed by the path string, taking the maximum. -/
def updateMax : List (Str × Nat) → Str → Nat → List (Str × Nat)
  | [], p, e => [(p, e)]
  | (q, m) :: rest, p, e =>
    if q = p then (q, max m e) :: rest else (q, m) :: updateMax rest p e

/-- The header line recognized by `parse_reference_tsv` (src/header.rs
line 162). -/
def refHeaderPat : Str := ("node\tstart\tend\tpath").data

/-- The loop of `parse_reference_tsv` (src/header.rs lines 159-170), with the
running line index `i`.  Note the loop reads the **fourth** tab field as the
path, whatever the number of columns. -/
def parseRefLoop : List Str → Nat → List (Str × Nat) → List (Str × Nat)
  | [], _, m => m
  | l :: rest, i, m =>
    if (rustTrim l).isEmpty then parseRefLoop rest (i + 1) m
    else if i = 0 ∧ startsWithStr l refHeaderPat then parseRefLoop rest (i + 1) m
    else
      let fields := splitTab l
      let e := (parseU64 (fields.getD 2 (('0' : Char) :: []))).getD 0
      let p := fields.getD 3 []
      if p.isEmpty then parseRefLoop rest (i + 1) m
      else parseRefLoop rest (i + 1) (updateMax m p e)

/-- `parse_reference_tsv` (src/header.rs): path (4th column) → maximum end
coordinate (3rd column). -/
def parse_reference_tsv (lines : List Str) : List (Str × Nat) :=
  parseRefLoop lines 0 []

/-- The contig aggregation of `header_run` (src/header.rs lines 84-90): group
the parsed paths by their normalized form at the configured level, keeping
the maximum length per normalized id. -/
def contigNormMap (contigs : List (Str × Nat)) (level : Nat) : List (Str × Nat) :=
  contigs.foldl
    (fun m kv =>
      match apply_ignore_rules kv.1 level with
      | some id => updateMax m id kv.2
      | none => m)
    []

/-- The contig emission of `header_run` (src/header.rs lines 91-97): one
`##contig` line per aggregated id, with a length attribute only when the
length is positive. -/
def contigDecls (contigs : List (Str × Nat)) (level : Nat) : List Str :=
  (contigNormMap contigs level).map fun idLen =>
    if idLen.2 > 0 then
      ("##contig=<ID=").data ++ idLen.1 ++ (",length=").data ++ natToStr idLen.2 ++ (">").data
    else
      ("##contig=<ID=").data ++ idLen.1 ++ (">").data

end Header

namespace IoStream

/-- The loop of `read_reference_tsv` (src/io_stream.rs lines 527-567): build
the node→path, node→start and node→sequence maps.  The 4-column shape fills
path and start; the 6-column shape also fills the sequence from field 3. -/
def readRefLoop :
    List Str → Nat →
    List (Nat × Str) × List (Nat × Nat) × List (Nat × Str) →
    List (Nat × Str) × List (Nat × Nat) × List (Nat × Str)
  | [], _, maps => maps
  | l :: rest, i, maps =>
    let trimmed := rustTrim l
    if trimmed.isEmpty then readRefLoop rest (i + 1) maps
    else if i = 0 ∧ startsWithStr (trimmed.map asciiLower) (('n' :: 'o' :: 'd' :: 'e' :: '\t' :: [])) then
      readRefLoop rest (i + 1) maps
    else
      let fields := splitTab trimmed
      if fields.length < 4 then readRefLoop rest (i + 1) maps
      else
        match parseU64 (rustTrim (fields.getD 0 [])) with
        | none => readRefLoop rest (i + 1) maps
        | some node =>
          let (mapPath, mapStart, mapSeq) := maps
          let mapStart :=
            match parseU64 (rustTrim (fields.getD 1 [])) with
            | some s => insertA mapStart node s
            | none => mapStart
          let pathVal := rustTrim (fields.getD (fields.length - 1) [])
          let mapPath := if pathVal.isEmpty then mapPath else insertA mapPath node pathVal
          let mapSeq :=
            if 6 ≤ fields.length then
              let seqVal := rustTrim (fields.getD 3 [])
              if seqVal.isEmpty then mapSeq else insertA mapSeq node seqVal
            else mapSeq
          readRefLoop rest (i + 1) (mapPath, mapStart, mapSeq)

/-- The three maps parsed by `read_reference_tsv` from the file's lines. -/
def readRefMaps (lines : List Str) :
    List (Nat × Str) × List (Nat × Nat) × List (Nat × Str) :=
  readRefLoop lines 0 ([], [], [])

/-- The three `OnceLock` globals `REF_NODE2PATH`, `REF_NODE2START`,
`REF_NODE2SEQ` (src/io_stream.rs lines 7-9). -/
structure RefGlobals where
  node2path : Option (List (Nat × Str))
  node2start : Option (List (Nat × Nat))
  node2seq : Option (List (Nat × Str))
deriving DecidableEq

/-- `OnceLock::set` followed by discarding the result: only the first set
sticks. -/
def onceSet {α : Type} (g : Option α) (m : α) : Option α :=
  match g with
  | none => some m
  | some old => some old

/-- `read_reference_tsv` (src/io_stream.rs): parse the file, attempt to seed
the three globals, and return the freshly parsed node→path map. -/
def read_reference_tsv (lines : List Str) (g : RefGlobals) :
    List (Nat × Str) × RefGlobals :=
  let maps := readRefMaps lines
  (maps.1,
   { node2path := onceSet g.node2path maps.1
     node2start := onceSet g.node2start maps.2.1
     node2seq := onceSet g.node2seq maps.2.2 })

end IoStream

namespace IoStream

/-- A non-header line with at least two fields whose raw CHROM matches the
skip set: in `stream_replace_chrom_to_tmp` such a record increments
`skipped` *before* `total` is incremented (lines 307-312). -/
def isSubstringSkip (env : Env) (line : Str) : Bool :=
  (!startsWithChar line '#') &&
  decide (2 ≤ (splitTab line).length) &&
  should_skip_chrom ((splitTab line).getD 0 []) env.skip

/-- Number of records dropped by the skip-substring check over a run. -/
def countSubstringSkips (env : Env) (lines : List Str) : Nat :=
  (lines.filter (fun l => isSubstringSkip env l)).length

end IoStream


namespace Header

/-- Claim-side: does one `;`-item constitute an appearance of key `k`, and
with which (possibly bare) value? -/
def keyItemValue (k : Str) (it : Str) : Option (Option Str) :=
  match splitOnceEq it with
  | some kv => if kv.1 = k then some (some kv.2) else none
  | none => if it = k then some none else none

/-- Claim-side: the appearances of key `k` on one body line, paired with the
line's ALT count. -/
def lineAppearances (k : Str) (line : Str) : List (Option Str × Nat) :=
  match validFields line with
  | none => []
  | some fields =>
    ((splitChar ';' (fields.getD 7 [])).filter (fun it => !it.isEmpty)).filterMap
      (fun it => (keyItemValue k it).map (fun v => (v, altCtOf fields)))

/-- Claim-side: all appearances of key `k` in the body, in order. -/
def appearances (lines : List Str) (k : Str) : List (Option Str × Nat) :=
  (lines.map (lineAppearances k)).flatten

/-- Claim-side: a value token classifying as an integer. -/
def valIsInt (v : Str) : Bool :=
  match classify_value_token v with
  | .Int => true
  | _ => false

/-- Claim-side: a value token classifying as a float. -/
def valIsFloat (v : Str) : Bool :=
  match classify_value_token v with
  | .Float => true
  | _ => false

/-- Claim-side: the comma-separated value lists of the valued (nonempty)
appearances. -/
def valLists (apps : List (Option Str × Nat)) : List (List Str) :=
  apps.filterMap (fun a =>
    match a.1 with
    | some v => if v.isEmpty then none else some (splitChar ',' v)
    | none => none)

/-- Claim-side: an appearance whose value count equals the ALT count. -/
def matchAP (a : Option Str × Nat) : Bool :=
  match a.1 with
  | some v => (!v.isEmpty) && decide ((splitChar ',' v).length = a.2)
  | none => false

/-- Claim-side: an appearance whose value count equals the ALT count + 1. -/
def matchRP (a : Option Str × Nat) : Bool :=
  match a.1 with
  | some v => (!v.isEmpty) && decide ((splitChar ',' v).length = a.2 + 1)
  | none => false

/-- The statistics of a key stated directly over its appearance list, per
the claim's wording: ever-bare, all/any value classification, singleton
value lists, and the A/R match counts. -/
def specStats (apps : List (Option Str × Nat)) : KeyStats :=
  { seen_as_flag := apps.any (fun a => a.1.isNone)
    all_int := ((valLists apps).flatten).all valIsInt
    any_float := ((valLists apps).flatten).any valIsFloat
    all_singleton := (valLists apps).all (fun vs => decide (vs.length = 1))
    matches_a := (apps.filter matchAP).length
    matches_r := (apps.filter matchRP).length
    samples := apps.length }

end Header

namespace Header

/-- One row of `parse_reference_tsv` as the loop body reads it (src/header.rs
lines 163-169): end = 3rd tab field, path = **4th** tab field. -/
def rowOf (l : Str) : Option (Str × Nat) :=
  if (rustTrim l).isEmpty then none
  else
    let fields := splitTab l
    let e := (parseU64 (fields.getD 2 (('0' : Char) :: []))).getD 0
    let p := fields.getD 3 []
    if p.isEmpty then none else some (p, e)

/-- Spec-side row reader: the claim says the path is always the **last**
column. -/
def rowOfLast (l : Str) : Option (Str × Nat) :=
  if (rustTrim l).isEmpty then none
  else
    let fields := splitTab l
    let e := (parseU64 (fields.getD 2 (('0' : Char) :: []))).getD 0
    let p := fields.getD (fields.length - 1) []
    if p.isEmpty then none else some (p, e)

/-- Spec-side rows of a reference table (header line dropped), read with the
path in the last column. -/
def refRowsLast (lines : List Str) : List (Str × Nat) :=
  match lines with
  | [] => []
  | l0 :: rest =>
    (if startsWithStr l0 refHeaderPat then [] else (rowOfLast l0).toList)
      ++ rest.filterMap rowOfLast

/-- Maximum of two optional naturals (`none` = absent). -/
def omax : Option Nat → Option Nat → Option Nat
  | none, b => b
  | some a, none => some a
  | some a, some b => some (max a b)

/-- First-match lookup in an association list. -/
def lookupS (m : List (Str × Nat)) (q : Str) : Option Nat :=
  match m with
  | [] => none
  | (p, e) :: rest => if p = q then some e else lookupS rest q

/-- Maximum value over all entries of an association list with the given
key. -/
def maxEndOf (rows : List (Str × Nat)) (q : Str) : Option Nat :=
  match rows with
  | [] => none
  | (p, e) :: rest => if p = q then omax (some e) (maxEndOf rest q) else maxEndOf rest q

/-- Normalize the path of every row at the given level, dropping rows whose
path the normalizer rejects. -/
def normRows (level : Nat) (rows : List (Str × Nat)) : List (Str × Nat) :=
  rows.filterMap (fun pe => (apply_ignore_rules pe.1 level).map (fun x => (x, pe.2)))

/-- Spec-side contig aggregate: the maximum end coordinate over all rows
(path = last column) whose path normalizes to `id` at `level`. -/
def specContigMax (lines : List Str) (level : Nat) (id : Str) : Option Nat :=
  maxEndOf (normRows level (refRowsLast lines)) id

/-- The rows of a reference table as the code's loop reads them (path = 4th
tab field). -/
def refRows (lines : List Str) : List (Str × Nat) :=
  match lines with
  | [] => []
  | l0 :: rest =>
    (if startsWithStr l0 refHeaderPat then [] else (rowOf l0).toList)
      ++ rest.filterMap rowOf

/-- Spec-side rendering of one contig declaration: the length attribute is
present exactly when the maximum end coordinate is positive. -/
def specDecl (cid : Str) (e : Nat) : Str :=
  if e > 0 then
    ("##contig=<ID=").data ++ cid ++ (",length=").data ++ natToStr e ++ (">").data
  else
    ("##contig=<ID=").data ++ cid ++ (">").data

end Header

/-! ## Claim theorems -/

/-- C5: with the Reference Store loaded from exactly the row
`10 0 5 ACGTG 5 sample#0#chr1`, an empty alignment map, no graph accessor,
empty skip set and ignore level 4, the rewriter turns the data line
`10 3 . A . . . .` into `chr1 0 3 ACGTG . . . .` — CHROM=chr1, POS=0, ID=3,
REF=ACGTG — and counts it as replaced. -/
theorem C5_scenario1 :
    (IoStream.streamRun
      { refPath := (IoStream.readRefMaps [("10\t0\t5\tACGTG\t5\tsample#0#chr1").data]).1
        refStart := (IoStream.readRefMaps [("10\t0\t5\tACGTG\t5\tsample#0#chr1").data]).2.1
        refSeq := (IoStream.readRefMaps [("10\t0\t5\tACGTG\t5\tsample#0#chr1").data]).2.2
        node2aln := []
        skip := []
        level := 4
        gfa := none }
      [("10\t3\t.\tA\t.\t.\t.\t.").data]).2 = [("chr1\t0\t3\tACGTG\t.\t.\t.\t.").data] ∧
    (IoStream.streamRun
      { refPath := (IoStream.readRefMaps [("10\t0\t5\tACGTG\t5\tsample#0#chr1").data]).1
        refStart := (IoStream.readRefMaps [("10\t0\t5\tACGTG\t5\tsample#0#chr1").data]).2.1
        refSeq := (IoStream.readRefMaps [("10\t0\t5\tACGTG\t5\tsample#0#chr1").data]).2.2
        node2aln := []
        skip := []
        level := 4
        gfa := none }
      [("10\t3\t.\tA\t.\t.\t.\t.").data]).1.replaced = 1 := by
  exact ⟨rfl, rfl⟩

/-- C4 counterexample: the two `extract_chr_token`/`apply_ignore_rules`
implementations disagree on `chrx.chr12` at level 4.  The streaming rewriter
(src/io_stream.rs) anchors on the **last** occurrence of "chr" and yields
`chr12`; the header inference engine (src/header.rs) anchors on the **first**
occurrence and yields `chrX`.  So the claim that both compute the same result
and both anchor on the last occurrence is false. -/
theorem C4_counterexample :
    IoStream.apply_ignore_rules (("chrx.chr12").data) 4 ≠
      Header.apply_ignore_rules (("chrx.chr12").data) 4 ∧
    IoStream.apply_ignore_rules (("chrx.chr12").data) 4 = some (("chr12").data) ∧
    Header.apply_ignore_rules (("chrx.chr12").data) 4 = some (("chrX").data) := by
  refine ⟨?_, rfl, rfl⟩
  decide

/-- C4 amended: the two normalizers agree at levels 0 and 1 and at every
unrecognized level (≥ 6), where no token capture happens; at levels 2-5 they
can differ, because the streaming rewriter anchors on the last occurrence of
the marker and captures only digits/X/Y/M while the header engine anchors on
the first occurrence and captures a full alphanumeric run. -/
theorem C4_normalizers_agree_no_capture_levels (raw : Str) :
    Header.apply_ignore_rules raw 0 = IoStream.apply_ignore_rules raw 0 ∧
    Header.apply_ignore_rules raw 1 = IoStream.apply_ignore_rules raw 1 ∧
    ∀ n : Nat, Header.apply_ignore_rules raw (n + 6) = IoStream.apply_ignore_rules raw (n + 6) := by
  exact ⟨rfl, rfl, fun _ => rfl⟩

/-- C2 evaluation at the failing input: `ref_set` is declared
`let ref_set = false;` in src/io_stream.rs and never set, so the
reference-store block runs even after the graph block wrote REF.  With a
graph accessor covering node 10 (sequence `GG`) and the Reference Store
holding `ACGTG` for node 10, REF ends up `ACGTG` (the store overwrites the
graph, and `replaced_ref` is incremented twice for one record); with the
graph accessor covering the node but the store lacking a sequence,
`missing_seq` is incremented although the graph supplied one.  Both
behaviors contradict the function's own documentation (lines 263, 266, 339),
which promise that a supplied graph sequence wins and the store's sequence
is ignored. -/
theorem C2_ref_overwrite_eval :
    (IoStream.streamRun
      { refPath := [(10, ("chr1").data)], refStart := [(10, 0)],
        refSeq := [(10, ("ACGTG").data)],
        gfa := some { indexLow := 0, indexHigh := 100, seq := fun _ => ("GG").data } }
      [("10\t3\t.\tA").data]).2 = [("chr1\t0\t3\tACGTG").data] ∧
    (IoStream.streamRun
      { refPath := [(10, ("chr1").data)], refStart := [(10, 0)],
        refSeq := [(10, ("ACGTG").data)],
        gfa := some { indexLow := 0, indexHigh := 100, seq := fun _ => ("GG").data } }
      [("10\t3\t.\tA").data]).1.replaced_ref = 2 ∧
    (IoStream.streamRun
      { refPath := [(10, ("chr1").data)],
        gfa := some { indexLow := 0, indexHigh := 100, seq := fun _ => ("GG").data } }
      [("10\t3\t.\tA").data]).2 = [("chr1\t3\t3\tGG").data] ∧
    (IoStream.streamRun
      { refPath := [(10, ("chr1").data)],
        gfa := some { indexLow := 0, indexHigh := 100, seq := fun _ => ("GG").data } }
      [("10\t3\t.\tA").data]).1.missing_seq = 1 := by
  exact ⟨rfl, rfl, rfl, rfl⟩

/-- C3 counterexample: the POS update uses `saturating_add`, so for an
alignment record with distance 0 and position u64::MAX the new POS is
u64::MAX and not `position + max(distance+1, 0) = 2^64`, falsifying the
claim's exact-sum formula. -/
theorem C3_counterexample :
    ((IoStream.replacedBranch {} {} (splitTab (("5\t1\t.\tA").data)) (("chr1").data) 5 none
        (some { path := ("chr1").data, distance := 0, position := 18446744073709551615 })).2).getD 1 []
      = natToStr 18446744073709551615 ∧
    ((IoStream.replacedBranch {} {} (splitTab (("5\t1\t.\tA").data)) (("chr1").data) 5 none
        (some { path := ("chr1").data, distance := 0, position := 18446744073709551615 })).2).getD 1 []
      ≠ natToStr (18446744073709551615 + 1) := by
  exact ⟨rfl, by decide⟩

namespace IoStream

theorem idStep_counts (st : StreamStats) (f : List Str) :
    (idStep st f).2.replaced = st.replaced ∧ (idStep st f).2.unmapped = st.unmapped ∧
    (idStep st f).2.skipped = st.skipped ∧ (idStep st f).2.total = st.total ∧
    (idStep st f).2.missing_start = st.missing_start := by
  unfold idStep; split <;> simp

theorem chromStep_counts (nc : Str) (st : StreamStats) (f : List Str) :
    (chromStep nc st f).2.replaced = st.replaced ∧ (chromStep nc st f).2.unmapped = st.unmapped ∧
    (chromStep nc st f).2.skipped = st.skipped ∧ (chromStep nc st f).2.total = st.total ∧
    (chromStep nc st f).2.missing_start = st.missing_start := by
  unfold chromStep; simp

theorem gfaRefStep_counts (env : Env) (n : Nat) (st : StreamStats) (f : List Str) :
    (gfaRefStep env n st f).2.replaced = st.replaced ∧ (gfaRefStep env n st f).2.unmapped = st.unmapped ∧
    (gfaRefStep env n st f).2.skipped = st.skipped ∧ (gfaRefStep env n st f).2.total = st.total ∧
    (gfaRefStep env n st f).2.missing_start = st.missing_start := by
  unfold gfaRefStep
  repeat' split
  all_goals try simp
  all_goals split <;> simp

theorem refSeqStep_counts (sq : Option Str) (st : StreamStats) (f : List Str) :
    (refSeqStep sq st f).2.replaced = st.replaced ∧ (refSeqStep sq st f).2.unmapped = st.unmapped ∧
    (refSeqStep sq st f).2.skipped = st.skipped ∧ (refSeqStep sq st f).2.total = st.total ∧
    (refSeqStep sq st f).2.missing_start = st.missing_start := by
  unfold refSeqStep
  repeat' split
  all_goals simp

theorem posAlnStep_counts (a : Option AlnInfo) (st : StreamStats) (f : List Str) :
    (posAlnStep a st f).2.1.replaced = st.replaced ∧ (posAlnStep a st f).2.1.unmapped = st.unmapped ∧
    (posAlnStep a st f).2.1.skipped = st.skipped ∧ (posAlnStep a st f).2.1.total = st.total ∧
    (posAlnStep a st f).2.1.missing_start = st.missing_start := by
  unfold posAlnStep
  repeat' split
  all_goals simp

theorem posStartStep_counts (env : Env) (n : Nat) (st : StreamStats) (f : List Str) (ps : Bool) :
    (posStartStep env n st f ps).2.1.replaced = st.replaced ∧
    (posStartStep env n st f ps).2.1.unmapped = st.unmapped ∧
    (posStartStep env n st f ps).2.1.skipped = st.skipped ∧
    (posStartStep env n st f ps).2.1.total = st.total ∧
    (posStartStep env n st f ps).2.1.missing_start = st.missing_start := by
  unfold posStartStep
  repeat' split
  all_goals simp

theorem replacedBranch_counts (env : Env) (st : StreamStats) (fields : List Str) (normChr : Str)
    (nodeId : Nat) (seqFromRef : Option Str) (alnInfo : Option AlnInfo) :
    (replacedBranch env st fields normChr nodeId seqFromRef alnInfo).1.replaced = st.replaced + 1 ∧
    (replacedBranch env st fields normChr nodeId seqFromRef alnInfo).1.unmapped = st.unmapped ∧
    (replacedBranch env st fields normChr nodeId seqFromRef alnInfo).1.skipped = st.skipped ∧
    (replacedBranch env st fields normChr nodeId seqFromRef alnInfo).1.total = st.total := by
  simp only [replacedBranch]
  obtain ⟨a1, a2, a3, a4, a5⟩ := idStep_counts st fields
  generalize hp1 : idStep st fields = p1 at *
  obtain ⟨b1, b2, b3, b4, b5⟩ := chromStep_counts normChr p1.2 p1.1
  generalize hp2 : chromStep normChr p1.2 p1.1 = p2 at *
  obtain ⟨c1, c2, c3, c4, c5⟩ := gfaRefStep_counts env nodeId p2.2 p2.1
  generalize hp3 : gfaRefStep env nodeId p2.2 p2.1 = p3 at *
  obtain ⟨d1, d2, d3, d4, d5⟩ := refSeqStep_counts seqFromRef p3.2 p3.1
  generalize hp4 : refSeqStep seqFromRef p3.2 p3.1 = p4 at *
  obtain ⟨e1, e2, e3, e4, e5⟩ := posAlnStep_counts alnInfo p4.2 p4.1
  generalize hp5 : posAlnStep alnInfo p4.2 p4.1 = p5 at *
  obtain ⟨f1, f2, f3, f4, f5⟩ := posStartStep_counts env nodeId p5.2.1 p5.1 p5.2.2
  generalize hp6 : posStartStep env nodeId p5.2.1 p5.1 p5.2.2 = p6 at *
  split <;> simp <;> omega

theorem unmappedBranch_counts (env : Env) (st : StreamStats) (fields : List Str) :
    (unmappedBranch env st fields).1.replaced = st.replaced ∧
    (unmappedBranch env st fields).1.total = st.total ∧
    (unmappedBranch env st fields).1.unmapped + (unmappedBranch env st fields).1.skipped
      = st.unmapped + st.skipped + 1 := by
  unfold unmappedBranch
  rcases h : apply_ignore_rules (fields.getD 0 []) env.level with _ | nc <;> simp <;> omega

theorem stepLine_delta (env : Env) (st : StreamStats) (l : Str) :
    (stepLine env st l).1.replaced + (stepLine env st l).1.unmapped +
      (stepLine env st l).1.skipped + st.total
    = (stepLine env st l).1.total + (if isSubstringSkip env l then 1 else 0) +
      (st.replaced + st.unmapped + st.skipped) := by
  simp only [stepLine]
  split
  next hH =>
    have hf : isSubstringSkip env l = false := by simp [isSubstringSkip, hH]
    simp [hf]; omega
  next hH =>
    split
    next hL =>
      have hf : isSubstringSkip env l = false := by
        have h2 : ¬ (2 ≤ (splitTab l).length) := by omega
        simp [isSubstringSkip, h2]
      simp [hf]; omega
    next hL =>
      have h2 : 2 ≤ (splitTab l).length := by omega
      split
      next hS =>
        have ht : isSubstringSkip env l = true := by
          unfold isSubstringSkip
          rw [hS]
          simp [hH, h2]
        simp [ht]; omega
      next hS =>
        have hS' : should_skip_chrom ((splitTab l).getD 0 []) env.skip = false := by
          revert hS
          cases should_skip_chrom ((splitTab l).getD 0 []) env.skip <;> simp
        have hf : isSubstringSkip env l = false := by
          unfold isSubstringSkip
          rw [hS']
          simp
        rw [hf]
        split
        next nid heq =>
          split
          next pathVal heq2 =>
            split
            next normChr heq3 =>
              obtain ⟨r1, r2, r3, r4⟩ := replacedBranch_counts env
                { st with total := st.total + 1 } (splitTab l) normChr nid
                (lookupA env.refSeq nid) (lookupA env.node2aln nid)
              simp at r1 r2 r3 r4 ⊢
              omega
            next heq3 =>
              simp; omega
          next heq2 =>
            obtain ⟨u1, u2, u3⟩ := unmappedBranch_counts env
              { st with total := st.total + 1 } (splitTab l)
            simp at u1 u2 u3 ⊢
            omega
        next heq =>
          obtain ⟨u1, u2, u3⟩ := unmappedBranch_counts env
            { st with total := st.total + 1 } (splitTab l)
          simp at u1 u2 u3 ⊢
          omega

end IoStream

/-- C1 counterexample: a record dropped by the skip-substring check
increments `skipped` *before* the `total` counter is incremented, so for the
single data line `x	1` with skip set {"x"} the run ends with total = 0 but
replaced + unmapped + skipped = 1, falsifying
`total == replaced + unmapped + skipped`. -/
theorem C1_counterexample :
    ¬ ((IoStream.streamRun { skip := [('x' : Char) :: []] } [("x\t1").data]).1.total
        = (IoStream.streamRun { skip := [('x' : Char) :: []] } [("x\t1").data]).1.replaced
          + (IoStream.streamRun { skip := [('x' : Char) :: []] } [("x\t1").data]).1.unmapped
          + (IoStream.streamRun { skip := [('x' : Char) :: []] } [("x\t1").data]).1.skipped) := by
  decide

/-- C1 amended: for every run of the streaming rewriter the counters satisfy
`replaced + unmapped + skipped = total + s`, where `s` is the number of
records dropped by the skip-substring check — those records increment
`skipped` without being counted in `total`, because the skip test fires
before `total` is incremented.  The claimed identity
`total == replaced + unmapped + skipped` holds exactly when no record is
dropped by the skip-substring check. -/
theorem C1_reconciliation_amended (env : IoStream.Env) (lines : List Str) :
    (IoStream.streamRun env lines).1.replaced + (IoStream.streamRun env lines).1.unmapped +
      (IoStream.streamRun env lines).1.skipped
    = (IoStream.streamRun env lines).1.total + IoStream.countSubstringSkips env lines := by
  have key : ∀ (ls : List Str) (st : IoStream.StreamStats) (outs : List Str),
      (ls.foldl
        (fun acc l =>
          ((IoStream.stepLine env acc.1 l).1,
            match (IoStream.stepLine env acc.1 l).2 with
            | some o => acc.2 ++ [o]
            | none => acc.2))
        (st, outs)).1.replaced +
      (ls.foldl
        (fun acc l =>
          ((IoStream.stepLine env acc.1 l).1,
            match (IoStream.stepLine env acc.1 l).2 with
            | some o => acc.2 ++ [o]
            | none => acc.2))
        (st, outs)).1.unmapped +
      (ls.foldl
        (fun acc l =>
          ((IoStream.stepLine env acc.1 l).1,
            match (IoStream.stepLine env acc.1 l).2 with
            | some o => acc.2 ++ [o]
            | none => acc.2))
        (st, outs)).1.skipped +
      st.total
      = (ls.foldl
          (fun acc l =>
            ((IoStream.stepLine env acc.1 l).1,
              match (IoStream.stepLine env acc.1 l).2 with
              | some o => acc.2 ++ [o]
              | none => acc.2))
          (st, outs)).1.total +
        IoStream.countSubstringSkips env ls + (st.replaced + st.unmapped + st.skipped) := by
    intro ls
    induction ls with
    | nil =>
      intro st outs
      simp only [List.foldl_nil, IoStream.countSubstringSkips, List.filter_nil,
        List.length_nil]
      omega
    | cons l ls ih =>
      intro st outs
      have hstep := IoStream.stepLine_delta env st l
      have hcount : IoStream.countSubstringSkips env (l :: ls)
          = (if IoStream.isSubstringSkip env l then 1 else 0)
            + IoStream.countSubstringSkips env ls := by
        simp [IoStream.countSubstringSkips, List.filter]
        rcases h : IoStream.isSubstringSkip env l <;> simp [h] <;> omega
      rw [List.foldl_cons, hcount]
      dsimp only
      have := ih (IoStream.stepLine env st l).1
        (match (IoStream.stepLine env st l).2 with
          | some o => outs ++ [o]
          | none => outs)
      omega
  have h := key lines {} []
  have e1 : ({} : IoStream.StreamStats).total = 0 := rfl
  have e2 : ({} : IoStream.StreamStats).replaced = 0 := rfl
  have e3 : ({} : IoStream.StreamStats).unmapped = 0 := rfl
  have e4 : ({} : IoStream.StreamStats).skipped = 0 := rfl
  simp only [IoStream.streamRun]
  omega

/-- C10: the three reference tables live in `OnceLock` globals; the first
call of `read_reference_tsv` populates them, and any later call — whatever
file it parses — leaves them unchanged while still returning the freshly
parsed node→path map, so the rewriter keeps resolving against the
first-loaded reference data. -/
theorem C10_reference_tables_load_once (lines lines2 : List Str) (g : IoStream.RefGlobals)
    (p : List (Nat × Str)) (s : List (Nat × Nat)) (q : List (Nat × Str))
    (hp : g.node2path = some p) (hs : g.node2start = some s) (hq : g.node2seq = some q) :
    (IoStream.read_reference_tsv lines2
        { node2path := none, node2start := none, node2seq := none }).2
      = { node2path := some (IoStream.readRefMaps lines2).1
          node2start := some (IoStream.readRefMaps lines2).2.1
          node2seq := some (IoStream.readRefMaps lines2).2.2 } ∧
    (IoStream.read_reference_tsv lines g).2 = g ∧
    (IoStream.read_reference_tsv lines g).1 = (IoStream.readRefMaps lines).1 := by
  refine ⟨rfl, ?_, rfl⟩
  cases g
  simp only [IoStream.read_reference_tsv, IoStream.RefGlobals.mk.injEq]
  simp only [IoStream.RefGlobals.node2path] at hp
  simp only [IoStream.RefGlobals.node2start] at hs
  simp only [IoStream.RefGlobals.node2seq] at hq
  subst hp hs hq
  exact ⟨rfl, rfl, rfl⟩

/-- C10 witness: a populated state is left untouched by a second call on a
different file, which still returns the new file's node→path map. -/
theorem C10_witness :
    (IoStream.read_reference_tsv [("11\t9\t9\tchrB").data]
        { node2path := none, node2start := none, node2seq := none }).2
      = { node2path := some (IoStream.readRefMaps [("11\t9\t9\tchrB").data]).1
          node2start := some (IoStream.readRefMaps [("11\t9\t9\tchrB").data]).2.1
          node2seq := some (IoStream.readRefMaps [("11\t9\t9\tchrB").data]).2.2 } ∧
    (IoStream.read_reference_tsv [("11\t9\t9\tchrB").data]
        { node2path := some [(10, ("chrA").data)], node2start := some [(10, 0)],
          node2seq := some [(10, ("ACGTG").data)] }).2
      = { node2path := some [(10, ("chrA").data)], node2start := some [(10, 0)],
          node2seq := some [(10, ("ACGTG").data)] } ∧
    (IoStream.read_reference_tsv [("11\t9\t9\tchrB").data]
        { node2path := some [(10, ("chrA").data)], node2start := some [(10, 0)],
          node2seq := some [(10, ("ACGTG").data)] }).1
      = (IoStream.readRefMaps [("11\t9\t9\tchrB").data]).1 :=
  C10_reference_tables_load_once [("11\t9\t9\tchrB").data] [("11\t9\t9\tchrB").data]
    { node2path := some [(10, ("chrA").data)], node2start := some [(10, 0)],
      node2seq := some [(10, ("ACGTG").data)] }
    [(10, ("chrA").data)] [(10, 0)] [(10, ("ACGTG").data)] rfl rfl rfl

/-- C9 counterexample: re-running the rewriter over its own output is not
idempotent even when the node ids stay resolvable.  With the store
node 1 → path `sample#0#chr1`, start 5, at level 4, the line `1 7 . A` is
rewritten to `chr1 5 7 A`; on a second run the emitted CHROM `chr1`
re-parses (via its trailing digit run) to node id 1, which is still
resolvable, so the record is rewritten again to `chr1 5 5 A`: the ID field
is overwritten with the first output's POS (7 becomes 5). -/
theorem C9_counterexample :
    (IoStream.streamRun
      { refPath := [(1, ("sample#0#chr1").data)], refStart := [(1, 5)], level := 4 }
      [("1\t7\t.\tA").data]).2 = [("chr1\t5\t7\tA").data] ∧
    (IoStream.streamRun
      { refPath := [(1, ("sample#0#chr1").data)], refStart := [(1, 5)], level := 4 }
      [("chr1\t5\t7\tA").data]).2 = [("chr1\t5\t5\tA").data] ∧
    IoStream.parse_node_id_from_chrom (("chr1").data) = some 1 ∧
    lookupA [(1, ("sample#0#chr1").data)] 1 ≠ none ∧
    ("chr1\t5\t5\tA").data ≠ ("chr1\t5\t7\tA").data := by
  exact ⟨rfl, rfl, rfl, by decide, by decide⟩

/-- C9 amended: re-running the rewriter is *not* idempotent for records whose
node-id candidate (parsed from the emitted CHROM, else from POS) still
resolves in the alignment or reference store — such records are rewritten
again, in particular ID is overwritten with the first output's POS.  A
record of the first output passes through unchanged on the second run
precisely when it is not a header line, matches no skip keyword, its node-id
candidate resolves in neither store, and its CHROM is a fixed point of the
normalizer at the configured level. -/
theorem C9_idempotence_amended (env : IoStream.Env) (st : IoStream.StreamStats) (O : Str)
    (hH : startsWithChar O '#' = false)
    (hL : 2 ≤ (splitTab O).length)
    (hS : IoStream.should_skip_chrom ((splitTab O).getD 0 []) env.skip = false)
    (hres : ∀ nid, (IoStream.parse_node_id_from_chrom ((splitTab O).getD 0 [])).or
        (if (IoStream.parse_node_id_from_chrom ((splitTab O).getD 0 [])).isNone then
          parseU64 (rustTrim ((splitTab O).getD 1 []))
        else none) = some nid →
        lookupA env.node2aln nid = none ∧ lookupA env.refPath nid = none)
    (hnorm : IoStream.apply_ignore_rules ((splitTab O).getD 0 []) env.level
      = some ((splitTab O).getD 0 [])) :
    (IoStream.stepLine env st O).2 = some O := by
  have hjoin : joinTab ((splitTab O).getD 0 [] :: (splitTab O).tail) = O := by
    rcases h : splitTab O with _ | ⟨a, t⟩
    · rw [h] at hL; simp at hL
    · have : joinTab (splitTab O) = O := by
        simpa [joinTab, splitTab] using @List.intercalate_splitOn Char O '\t' _
      rw [h] at this
      simpa [h] using this
  have hunm : (IoStream.unmappedBranch env { st with total := st.total + 1 } (splitTab O)).2
      = some O := by
    unfold IoStream.unmappedBranch
    rw [hnorm]
    simpa using hjoin
  simp only [IoStream.stepLine, hH, Bool.false_eq_true, if_false]
  rw [if_neg (by omega)]
  rw [hS]
  simp only [Bool.false_eq_true, if_false]
  rcases hN : (IoStream.parse_node_id_from_chrom ((splitTab O).getD 0 [])).or
      (if (IoStream.parse_node_id_from_chrom ((splitTab O).getD 0 [])).isNone then
        parseU64 (rustTrim ((splitTab O).getD 1 []))
      else none) with _ | nid
  · simp only [hN]
    exact hunm
  · obtain ⟨ha, hp⟩ := hres nid hN
    simp only [hN, ha, hp, Option.map_none', Option.none_or]
    exact hunm

/-- C9 witness: the line `foo 1` (whose POS-derived node id 1 resolves in
neither of the empty stores) passes through the rewriter unchanged. -/
theorem C9_witness :
    (IoStream.stepLine {} {} (("foo\t1").data)).2 = some (("foo\t1").data) :=
  C9_idempotence_amended {} {} (("foo\t1").data) rfl (by decide) rfl
    (fun nid h => by
      have h1 : (1 : Nat) = nid := Option.some.inj h
      subst h1
      exact ⟨rfl, rfl⟩)
    rfl

namespace IoStream

theorem idStep_f1 (st : StreamStats) (f : List Str) :
    (idStep st f).1[1]? = f[1]? ∧ (idStep st f).1.length = f.length := by
  unfold idStep; split <;> simp [List.getElem?_set_ne]

theorem chromStep_f1 (nc : Str) (st : StreamStats) (f : List Str) :
    (chromStep nc st f).1[1]? = f[1]? ∧ (chromStep nc st f).1.length = f.length := by
  unfold chromStep; simp [List.getElem?_set_ne]

theorem gfaRefStep_f1 (env : Env) (n : Nat) (st : StreamStats) (f : List Str) :
    (gfaRefStep env n st f).1[1]? = f[1]? ∧ (gfaRefStep env n st f).1.length = f.length := by
  unfold gfaRefStep
  repeat' split
  all_goals try simp [List.getElem?_set_ne]
  all_goals split <;> simp [List.getElem?_set_ne]

theorem refSeqStep_f1 (sq : Option Str) (st : StreamStats) (f : List Str) :
    (refSeqStep sq st f).1[1]? = f[1]? ∧ (refSeqStep sq st f).1.length = f.length := by
  unfold refSeqStep
  repeat' split
  all_goals simp [List.getElem?_set_ne]

theorem posAlnStep_none (st : StreamStats) (f : List Str) :
    posAlnStep none st f = (f, st, false) := by
  unfold posAlnStep; rfl

theorem posAlnStep_some (a : AlnInfo) (st : StreamStats) (f : List Str) (h : 2 ≤ f.length) :
    (posAlnStep (some a) st f).1[1]? = some (natToStr (newPosOf a)) ∧
    (posAlnStep (some a) st f).2.2 = true := by
  unfold posAlnStep
  dsimp only
  rw [if_pos h]
  exact ⟨List.getElem?_set_eq_of_lt _ (by omega), rfl⟩

theorem posStartStep_true (env : Env) (n : Nat) (st : StreamStats) (f : List Str) :
    posStartStep env n st f true = (f, st, true) := by
  unfold posStartStep; rfl

theorem posStartStep_some (env : Env) (n : Nat) (st : StreamStats) (f : List Str) (s : Nat)
    (hs : lookupA env.refStart n = some s) (h : 2 ≤ f.length) :
    (posStartStep env n st f false).1[1]? = some (natToStr s) ∧
    (posStartStep env n st f false).2.2 = true := by
  unfold posStartStep
  rw [hs]
  simp only [Bool.false_eq_true, if_false]
  rw [if_pos h]
  exact ⟨List.getElem?_set_eq_of_lt _ (by omega), rfl⟩

theorem posStartStep_noneS (env : Env) (n : Nat) (st : StreamStats) (f : List Str)
    (hs : lookupA env.refStart n = none) :
    posStartStep env n st f false = (f, st, false) := by
  unfold posStartStep
  rw [hs]
  rfl

theorem newPosOf_spec (a : AlnInfo) :
    newPosOf a = if a.distance > 1000000000 then a.position
      else min ((max (a.distance + 1) 0).toNat + a.position) 18446744073709551615 := by
  unfold newPosOf satAdd64
  split
  · rfl
  · rcases le_or_lt (-1 : Int) a.distance with hd | hd
    · rw [if_pos hd, max_eq_left (by omega)]
    · rw [if_neg (by omega), max_eq_right (by omega)]
      simp

theorem C3_pos_rule_amended (env : Env) (st : StreamStats) (fields : List Str)
    (normChr : Str) (nid : Nat) (seqFromRef : Option Str) (alnInfo : Option AlnInfo)
    (hL : 2 ≤ fields.length) :
    (∀ a, alnInfo = some a →
      (replacedBranch env st fields normChr nid seqFromRef alnInfo).2[1]?
        = some (natToStr (if a.distance > 1000000000 then a.position
            else min ((max (a.distance + 1) 0).toNat + a.position) 18446744073709551615)) ∧
      (replacedBranch env st fields normChr nid seqFromRef alnInfo).1.missing_start
        = st.missing_start) ∧
    (∀ s, alnInfo = none → lookupA env.refStart nid = some s →
      (replacedBranch env st fields normChr nid seqFromRef alnInfo).2[1]?
        = some (natToStr s) ∧
      (replacedBranch env st fields normChr nid seqFromRef alnInfo).1.missing_start
        = st.missing_start) ∧
    (alnInfo = none → lookupA env.refStart nid = none →
      (replacedBranch env st fields normChr nid seqFromRef alnInfo).2[1]? = fields[1]? ∧
      (replacedBranch env st fields normChr nid seqFromRef alnInfo).1.missing_start
        = st.missing_start + 1) := by
  simp only [replacedBranch]
  have hI := idStep_f1 st fields
  have hIc := idStep_counts st fields
  generalize hp1 : idStep st fields = p1 at *
  have hC := chromStep_f1 normChr p1.2 p1.1
  have hCc := chromStep_counts normChr p1.2 p1.1
  generalize hp2 : chromStep normChr p1.2 p1.1 = p2 at *
  have hG := gfaRefStep_f1 env nid p2.2 p2.1
  have hGc := gfaRefStep_counts env nid p2.2 p2.1
  generalize hp3 : gfaRefStep env nid p2.2 p2.1 = p3 at *
  have hR := refSeqStep_f1 seqFromRef p3.2 p3.1
  have hRc := refSeqStep_counts seqFromRef p3.2 p3.1
  generalize hp4 : refSeqStep seqFromRef p3.2 p3.1 = p4 at *
  have hlen : p4.1.length = fields.length := by rw [hR.2, hG.2, hC.2, hI.2]
  have hf4 : p4.1[1]? = fields[1]? := by rw [hR.1, hG.1, hC.1, hI.1]
  have hms : p4.2.missing_start = st.missing_start := by
    rw [hRc.2.2.2.2, hGc.2.2.2.2, hCc.2.2.2.2, hIc.2.2.2.2]
  have h2 : 2 ≤ p4.1.length := by omega
  refine ⟨?_, ?_, ?_⟩
  · intro a ha
    subst ha
    obtain ⟨q1, q2⟩ := posAlnStep_some a p4.2 p4.1 h2
    have hAc := posAlnStep_counts (some a) p4.2 p4.1
    generalize hp5 : posAlnStep (some a) p4.2 p4.1 = p5 at *
    rw [q2, posStartStep_true]
    refine ⟨?_, ?_⟩
    · simp [q1, newPosOf_spec]
    · simp [hAc.2.2.2.2, hms]
  · intro s ha hs
    subst ha
    rw [posAlnStep_none]
    try dsimp only
    obtain ⟨q1, q2⟩ := posStartStep_some env nid p4.2 p4.1 s hs h2
    have hSc := posStartStep_counts env nid p4.2 p4.1 false
    generalize hp6 : posStartStep env nid p4.2 p4.1 false = p6 at *
    rw [q2]
    refine ⟨?_, ?_⟩
    · simp [q1]
    · simp [hSc.2.2.2.2, hms]
  · intro ha hs
    subst ha
    rw [posAlnStep_none]
    try dsimp only
    rw [posStartStep_noneS env nid p4.2 p4.1 hs]
    try dsimp only
    refine ⟨?_, ?_⟩
    · simp [hf4]
    · simp [hms]

end IoStream

/-- C3 witness: for the alignment record (distance 2, position 10) on the
line `5 1 . A`, the rewriter writes POS = 13 = 10 + (2+1) and the
missing-start counter stays 0. -/
theorem C3_witness :
    (IoStream.replacedBranch {} {} (splitTab (("5\t1\t.\tA").data)) (("chr1").data) 5 none
        (some { path := ("chr1").data, distance := 2, position := 10 })).2[1]?
      = some (natToStr 13) ∧
    (IoStream.replacedBranch {} {} (splitTab (("5\t1\t.\tA").data)) (("chr1").data) 5 none
        (some { path := ("chr1").data, distance := 2, position := 10 })).1.missing_start
      = 0 := by
  have h := (IoStream.C3_pos_rule_amended {} {} (splitTab (("5\t1\t.\tA").data))
      (("chr1").data) 5 none
      (some { path := ("chr1").data, distance := 2, position := 10 }) (by decide)).1
      { path := ("chr1").data, distance := 2, position := 10 } rfl
  refine ⟨?_, h.2⟩
  rw [h.1]
  decide

namespace Header

theorem specStats_nil : specStats [] = KeyStats.default := by
  simp [specStats, valLists, KeyStats.default]

theorem specStats_append (a b : List (Option Str × Nat)) :
    specStats (a ++ b) = merge_keystats (specStats a) (specStats b) := by
  simp [specStats, merge_keystats, valLists, List.filterMap_append, List.filter_append]

theorem merge_keystats_assoc (a b c : KeyStats) :
    merge_keystats (merge_keystats a b) c = merge_keystats a (merge_keystats b c) := by
  simp [merge_keystats, Bool.or_assoc, Bool.and_assoc, Nat.add_assoc]

theorem merge_keystats_comm (a b : KeyStats) :
    merge_keystats a b = merge_keystats b a := by
  simp [merge_keystats, Bool.or_comm, Bool.and_comm, Nat.add_comm]

theorem merge_keystats_default_left (a : KeyStats) :
    merge_keystats KeyStats.default a = a := by
  cases a; simp [merge_keystats, KeyStats.default]

theorem merge_keystats_default_right (a : KeyStats) :
    merge_keystats a KeyStats.default = a := by
  cases a; simp [merge_keystats, KeyStats.default]

theorem valStep_fold (vals : List Str) (ks : KeyStats) :
    vals.foldl valStep ks =
      { ks with all_int := ks.all_int && vals.all valIsInt,
                any_float := ks.any_float || vals.any valIsFloat } := by
  induction vals generalizing ks with
  | nil => simp
  | cons v vs ih =>
    rw [List.foldl_cons, ih]
    unfold valStep valIsInt valIsFloat
    cases h : classify_value_token v <;>
      simp [h, valIsInt, valIsFloat, Bool.and_assoc, Bool.or_assoc]

theorem itemStep_merge (k : Str) (alt : Nat) (ks : KeyStats) (it : Str) :
    itemStep k alt ks it = merge_keystats ks (itemStep k alt KeyStats.default it) := by
  unfold itemStep
  by_cases h0 : it.isEmpty
  · simp [h0, merge_keystats_default_right]
  · simp only [h0, Bool.false_eq_true, if_false]
    rcases hsp : splitOnceEq it with _ | ⟨ki, v⟩
    · by_cases hk : it = k
      · rw [if_pos hk, if_pos hk]
        cases ks
        simp [merge_keystats, KeyStats.default]
      · rw [if_neg hk, if_neg hk, merge_keystats_default_right]
    · by_cases hk : ki = k
      · simp only [if_pos hk]
        by_cases hv : v.isEmpty
        · simp only [hv, if_true]
          cases ks
          simp [merge_keystats, KeyStats.default]
        · simp only [hv, Bool.false_eq_true, if_false]
          rw [valStep_fold, valStep_fold]
          cases ks
          split_ifs <;> simp [merge_keystats, KeyStats.default, Bool.and_assoc, Bool.or_assoc]
      · simp only [if_neg hk, merge_keystats_default_right]

theorem itemStep_default_spec (k : Str) (alt : Nat) (it : Str) (h0 : it.isEmpty = false) :
    itemStep k alt KeyStats.default it
      = specStats (((keyItemValue k it).map (fun v => (v, alt))).toList) := by
  unfold itemStep keyItemValue
  simp only [h0, Bool.false_eq_true, if_false]
  rcases hsp : splitOnceEq it with _ | ⟨ki, v⟩
  · by_cases hk : it = k
    · rw [if_pos hk, if_pos hk]
      simp [specStats, valLists, matchAP, matchRP, KeyStats.default]
    · rw [if_neg hk, if_neg hk]
      simp [specStats_nil]
  · by_cases hk : ki = k
    · simp only [if_pos hk]
      by_cases hv : v.isEmpty
      · have hv' : v = [] := by simpa using hv
        subst hv'
        simp [specStats, valLists, matchAP, matchRP, KeyStats.default]
      · have hv' : ¬ (v = []) := by simpa using hv
        simp only [hv, Bool.false_eq_true, if_false,
          show v.isEmpty = false by simpa using hv]
        rw [valStep_fold]
        simp [specStats, valLists, matchAP, matchRP, KeyStats.default, hv']
        split_ifs <;> simp_all [matchAP, matchRP, List.filter_cons]
    · simp only [if_neg hk]
      simp [specStats_nil]

theorem foldl_itemStep_merge (k : Str) (alt : Nat) (items : List Str) (ks : KeyStats) :
    items.foldl (itemStep k alt) ks
      = merge_keystats ks (items.foldl (itemStep k alt) KeyStats.default) := by
  induction items generalizing ks with
  | nil => simp [merge_keystats_default_right]
  | cons it its ih =>
    rw [List.foldl_cons, List.foldl_cons, ih (itemStep k alt ks it),
      ih (itemStep k alt KeyStats.default it), itemStep_merge, merge_keystats_assoc]

theorem foldl_itemStep_spec (k : Str) (alt : Nat) (items : List Str) :
    items.foldl (itemStep k alt) KeyStats.default
      = specStats ((items.filter (fun it => !it.isEmpty)).filterMap
          (fun it => (keyItemValue k it).map (fun v => (v, alt)))) := by
  induction items with
  | nil => simp [specStats_nil]
  | cons it its ih =>
    rw [List.foldl_cons, foldl_itemStep_merge, ih]
    by_cases h0 : it.isEmpty
    · have hstep : itemStep k alt KeyStats.default it = KeyStats.default := by
        unfold itemStep; simp [h0]
      have hfil : (it :: its).filter (fun x => !x.isEmpty)
          = its.filter (fun x => !x.isEmpty) := by
        simp [List.filter_cons, h0]
      rw [hstep, merge_keystats_default_left, hfil]
    · have hfil : (it :: its).filter (fun x => !x.isEmpty)
          = it :: its.filter (fun x => !x.isEmpty) := by
        simp [List.filter_cons, h0]
      rw [hfil, itemStep_default_spec k alt it (by simpa using h0), List.filterMap_cons]
      rcases hkv : (keyItemValue k it).map (fun v => (v, alt)) with _ | x
      · simp [specStats_nil, merge_keystats_default_left]
      · dsimp only
        have hx : (x :: (its.filter (fun x => !x.isEmpty)).filterMap
            (fun it => (keyItemValue k it).map (fun v => (v, alt))))
            = [x] ++ (its.filter (fun x => !x.isEmpty)).filterMap
                (fun it => (keyItemValue k it).map (fun v => (v, alt))) := rfl
        rw [hx, specStats_append]
        rfl

theorem lineStep_default_spec (k : Str) (line : Str) :
    lineStep k KeyStats.default line = specStats (lineAppearances k line) := by
  unfold lineStep lineAppearances
  rcases hv : validFields line with _ | fields
  · simp [specStats_nil]
  · exact foldl_itemStep_spec k (altCtOf fields) (splitChar ';' (fields.getD 7 []))

theorem foldl_lineStep_merge (k : Str) (ls : List Str) :
    ∀ ks : KeyStats, ls.foldl (lineStep k) ks = merge_keystats ks (infoStats ls k) := by
  induction ls with
  | nil => intro ks; simp [infoStats, merge_keystats_default_right]
  | cons l ls ih =>
    intro ks
    have hstep : ∀ x : KeyStats, lineStep k x l
        = merge_keystats x (lineStep k KeyStats.default l) := by
      intro x
      unfold lineStep
      rcases hv : validFields l with _ | fields
      · simp [merge_keystats_default_right]
      · exact foldl_itemStep_merge k (altCtOf fields) (splitChar ';' (fields.getD 7 [])) x
    have h2 : infoStats (l :: ls) k
        = merge_keystats (lineStep k KeyStats.default l) (infoStats ls k) := by
      unfold infoStats
      rw [List.foldl_cons]
      exact ih (lineStep k KeyStats.default l)
    rw [List.foldl_cons, ih (lineStep k ks l), hstep ks, h2, merge_keystats_assoc]

theorem infoStats_spec (lines : List Str) (k : Str) :
    infoStats lines k = specStats (appearances lines k) := by
  induction lines with
  | nil => simp [infoStats, appearances, specStats_nil]
  | cons l ls ih =>
    have h2 : infoStats (l :: ls) k
        = merge_keystats (lineStep k KeyStats.default l) (infoStats ls k) := by
      unfold infoStats
      rw [List.foldl_cons]
      exact foldl_lineStep_merge k ls (lineStep k KeyStats.default l)
    rw [h2, ih, lineStep_default_spec]
    unfold appearances
    rw [List.map_cons, List.flatten_cons, specStats_append]

theorem infoStats_append (xs ys : List Str) (k : Str) :
    infoStats (xs ++ ys) k = merge_keystats (infoStats xs k) (infoStats ys k) := by
  have h1 : infoStats (xs ++ ys) k = (xs ++ ys).foldl (lineStep k) KeyStats.default := rfl
  rw [h1, List.foldl_append]
  exact foldl_lineStep_merge k ys (xs.foldl (lineStep k) KeyStats.default)

theorem foldl_merge_from (l : List KeyStats) :
    ∀ x : KeyStats, l.foldl merge_keystats x
      = merge_keystats x (l.foldl merge_keystats KeyStats.default) := by
  induction l with
  | nil => intro x; simp [merge_keystats_default_right]
  | cons y l ih =>
    intro x
    rw [List.foldl_cons, List.foldl_cons, ih (merge_keystats x y),
      ih (merge_keystats KeyStats.default y), merge_keystats_default_left,
      merge_keystats_assoc]

end Header

/-- C7: the per-key FieldStats merge is associative and commutative with the
default `KeyStats` as two-sided identity, and consequently splitting a fixed
variant body into blocks at any boundaries and merging the per-block
statistics left-to-right yields the same per-key statistics as one
sequential pass over the whole body. -/
theorem C7_fieldstats_merge_monoid :
    (∀ a b c : Header.KeyStats,
      Header.merge_keystats (Header.merge_keystats a b) c
        = Header.merge_keystats a (Header.merge_keystats b c)) ∧
    (∀ a b : Header.KeyStats, Header.merge_keystats a b = Header.merge_keystats b a) ∧
    (∀ a : Header.KeyStats,
      Header.merge_keystats Header.KeyStats.default a = a ∧
      Header.merge_keystats a Header.KeyStats.default = a) ∧
    (∀ (blocks : List (List Str)) (k : Str),
      (blocks.map (fun b => Header.infoStats b k)).foldl
          Header.merge_keystats Header.KeyStats.default
        = Header.infoStats blocks.flatten k) := by
  refine ⟨Header.merge_keystats_assoc, Header.merge_keystats_comm,
    (fun a => ⟨Header.merge_keystats_default_left a, Header.merge_keystats_default_right a⟩), ?_⟩
  intro blocks k
  induction blocks with
  | nil => rfl
  | cons b bs ih =>
    rw [List.map_cons, List.foldl_cons, Header.foldl_merge_from,
      Header.merge_keystats_default_left, ih, List.flatten_cons, Header.infoStats_append]

/-- C6: for every INFO key that actually appears in the body, the inferred
declaration's Type is Flag when the key ever appeared without "=" on a line,
else Integer when every observed value classifies as an integer and none as
a float, else Float when some value is a float, else String; and its Number
is 0 for flags, else "A" when at least half of the key's appearances carry a
value count equal to the line's ALT count, else "R" for ALT count + 1, else
"1" when every valued appearance is a singleton, else ".".  (An appearance
with an empty value contributes to the appearance count but carries no
values.) -/
theorem C6_info_type_number (lines : List Str) (k : Str)
    (h : Header.appearances lines k ≠ []) :
    Header.infoTyp (Header.infoStats lines k)
      = (if (Header.appearances lines k).any (fun a => a.1.isNone) then ("Flag").data
         else if ((Header.valLists (Header.appearances lines k)).flatten).all Header.valIsInt
                && !((Header.valLists (Header.appearances lines k)).flatten).any Header.valIsFloat
           then ("Integer").data
         else if ((Header.valLists (Header.appearances lines k)).flatten).any Header.valIsFloat
           then ("Float").data
         else ("String").data) ∧
    Header.infoNumber (Header.infoStats lines k)
      = (if (Header.appearances lines k).any (fun a => a.1.isNone) then ("0").data
         else if 2 * ((Header.appearances lines k).filter Header.matchAP).length
                ≥ (Header.appearances lines k).length then ("A").data
         else if 2 * ((Header.appearances lines k).filter Header.matchRP).length
                ≥ (Header.appearances lines k).length then ("R").data
         else if (Header.valLists (Header.appearances lines k)).all
                (fun vs => decide (vs.length = 1)) then ("1").data
         else (".").data) := by
  have hn : (Header.appearances lines k).length > 0 := List.length_pos.mpr h
  rw [Header.infoStats_spec]
  constructor
  · unfold Header.infoTyp Header.specStats
    rfl
  · unfold Header.infoNumber Header.specStats
    have c2 : (((Header.appearances lines k).filter Header.matchAP).length * 2
          ≥ (Header.appearances lines k).length ∧ (Header.appearances lines k).length > 0)
        ↔ (2 * ((Header.appearances lines k).filter Header.matchAP).length
          ≥ (Header.appearances lines k).length) := by
      omega
    have c3 : (((Header.appearances lines k).filter Header.matchRP).length * 2
          ≥ (Header.appearances lines k).length ∧ (Header.appearances lines k).length > 0)
        ↔ (2 * ((Header.appearances lines k).filter Header.matchRP).length
          ≥ (Header.appearances lines k).length) := by
      omega
    simp only [c2, c3]

/-- C6 witness: for the single line `c 1 . A G . . K=3` the key K is
inferred as Type=Integer, Number=A. -/
theorem C6_witness :
    Header.infoTyp (Header.infoStats [("c\t1\t.\tA\tG\t.\t.\tK=3").data] (("K").data))
      = ("Integer").data ∧
    Header.infoNumber (Header.infoStats [("c\t1\t.\tA\tG\t.\t.\tK=3").data] (("K").data))
      = ("A").data := by
  have h := C6_info_type_number [("c\t1\t.\tA\tG\t.\t.\tK=3").data] (("K").data) (by decide)
  exact ⟨by rw [h.1]; rfl, by rw [h.2]; rfl⟩

namespace Header

theorem omax_none_left (b : Option Nat) : omax none b = b := rfl

theorem omax_none_right (a : Option Nat) : omax a none = a := by
  cases a <;> rfl

theorem omax_comm (a b : Option Nat) : omax a b = omax b a := by
  cases a <;> cases b <;> simp [omax, Nat.max_comm]

theorem omax_assoc (a b c : Option Nat) : omax (omax a b) c = omax a (omax b c) := by
  cases a <;> cases b <;> cases c <;> simp [omax, Nat.max_assoc]

theorem lookupS_updateMax (m : List (Str × Nat)) (p : Str) (e : Nat) (q : Str) :
    lookupS (updateMax m p e) q
      = if p = q then omax (some e) (lookupS m q) else lookupS m q := by
  induction m with
  | nil =>
    by_cases hpq : p = q <;> simp [updateMax, lookupS, hpq, omax]
  | cons me rest ih =>
    obtain ⟨p', e'⟩ := me
    by_cases hp : p' = p
    · subst hp
      by_cases hq : p' = q
      · subst hq
        simp [updateMax, lookupS, omax, Nat.max_comm]
      · simp [updateMax, lookupS, hq]
    · by_cases hq : p' = q
      · subst hq
        have hpq : ¬ (p = p') := fun h => hp h.symm
        simp [updateMax, lookupS, hp, hpq]
      · simp [updateMax, lookupS, hp, hq, ih]

theorem foldl_updateMax_lookupS (rows : List (Str × Nat)) :
    ∀ (m : List (Str × Nat)) (q : Str),
      lookupS (rows.foldl (fun m pe => updateMax m pe.1 pe.2) m) q
        = omax (lookupS m q) (maxEndOf rows q) := by
  induction rows with
  | nil => intro m q; simp [maxEndOf, omax_none_right]
  | cons pe rest ih =>
    intro m q
    obtain ⟨p, e⟩ := pe
    rw [List.foldl_cons]
    rw [ih (updateMax m p e) q]
    rw [lookupS_updateMax]
    by_cases hpq : p = q
    · simp only [maxEndOf, hpq, if_pos trivial, eq_self_iff_true, if_true]
      rw [omax_comm (some e) (lookupS m q), omax_assoc]
    · simp [maxEndOf, hpq]


theorem parseRefLoop_tail (lines : List Str) :
    ∀ (i : Nat) (m : List (Str × Nat)), 1 ≤ i →
      parseRefLoop lines i m
        = (lines.filterMap rowOf).foldl (fun m pe => updateMax m pe.1 pe.2) m := by
  induction lines with
  | nil => intro i m hi; rfl
  | cons l rest ih =>
    intro i m hi
    simp only [parseRefLoop]
    by_cases ht : (rustTrim l).isEmpty
    · rw [if_pos ht, ih (i + 1) m (by omega)]
      have h0 : rowOf l = none := by
        simp only [rowOf]; rw [if_pos ht]
      rw [List.filterMap_cons, h0]
    · rw [if_neg ht]
      have hh : ¬ (i = 0 ∧ startsWithStr l refHeaderPat) := by
        rintro ⟨h0, -⟩; omega
      rw [if_neg hh]
      by_cases hp : ((splitTab l).getD 3 []).isEmpty
      · rw [if_pos hp, ih (i + 1) m (by omega)]
        have h0 : rowOf l = none := by
          simp only [rowOf]; rw [if_neg ht, if_pos hp]
        rw [List.filterMap_cons, h0]
      · rw [if_neg hp, ih (i + 1) _ (by omega)]
        have h0 : rowOf l = some ((splitTab l).getD 3 [],
            (parseU64 ((splitTab l).getD 2 (('0' : Char) :: []))).getD 0) := by
          simp only [rowOf]; rw [if_neg ht, if_neg hp]
        rw [List.filterMap_cons, h0]
        rfl

theorem parse_reference_tsv_rows (lines : List Str) :
    parse_reference_tsv lines
      = (refRows lines).foldl (fun m pe => updateMax m pe.1 pe.2) [] := by
  cases lines with
  | nil => rfl
  | cons l0 rest =>
    unfold parse_reference_tsv
    simp only [parseRefLoop]
    by_cases ht : (rustTrim l0).isEmpty
    · rw [if_pos ht, parseRefLoop_tail rest 1 [] (by omega)]
      have h0 : rowOf l0 = none := by
        simp only [rowOf]; rw [if_pos ht]
      simp only [refRows]
      rw [h0]
      by_cases hh : startsWithStr l0 refHeaderPat <;> simp [hh]
    · rw [if_neg ht]
      by_cases hh : startsWithStr l0 refHeaderPat
      · rw [if_pos ⟨trivial, hh⟩, parseRefLoop_tail rest 1 [] (by omega)]
        simp only [refRows]
        simp [hh]
      · have hh' : ¬ (True ∧ startsWithStr l0 refHeaderPat = true) := by
          rintro ⟨-, h⟩; exact hh h
        rw [if_neg hh']
        by_cases hp : ((splitTab l0).getD 3 []).isEmpty
        · rw [if_pos hp, parseRefLoop_tail rest 1 [] (by omega)]
          have h0 : rowOf l0 = none := by
            simp only [rowOf]; rw [if_neg ht, if_pos hp]
          simp only [refRows]
          rw [h0]
          simp [hh]
        · rw [if_neg hp, parseRefLoop_tail rest 1 _ (by omega)]
          have h0 : rowOf l0 = some ((splitTab l0).getD 3 [],
              (parseU64 ((splitTab l0).getD 2 (('0' : Char) :: []))).getD 0) := by
            simp only [rowOf]; rw [if_neg ht, if_neg hp]
          simp only [refRows]
          rw [h0]
          simp [hh]

theorem contigNormMap_eq (contigs : List (Str × Nat)) (level : Nat) :
    contigNormMap contigs level
      = (normRows level contigs).foldl (fun m pe => updateMax m pe.1 pe.2) [] := by
  suffices h : ∀ m : List (Str × Nat),
      contigs.foldl
        (fun m kv =>
          match apply_ignore_rules kv.1 level with
          | some id => updateMax m id kv.2
          | none => m) m
      = (normRows level contigs).foldl (fun m pe => updateMax m pe.1 pe.2) m by
    exact h []
  induction contigs with
  | nil => intro m; rfl
  | cons kv rest ih =>
    intro m
    rw [List.foldl_cons]
    unfold normRows
    rw [List.filterMap_cons]
    rcases hn : apply_ignore_rules kv.1 level with _ | id
    · simp only [hn, Option.map_none']
      exact ih m
    · simp only [hn, Option.map_some']
      rw [List.foldl_cons]
      exact ih (updateMax m id kv.2)


theorem omax_left_comm (a b c : Option Nat) :
    omax a (omax b c) = omax b (omax a c) := by
  rw [← omax_assoc, omax_comm a b, omax_assoc]

theorem normRows_cons_none {p : Str} {level : Nat} (e : Nat) (rest : List (Str × Nat))
    (h : apply_ignore_rules p level = none) :
    normRows level ((p, e) :: rest) = normRows level rest := by
  simp [normRows, h]

theorem normRows_cons_some {p x : Str} {level : Nat} (e : Nat) (rest : List (Str × Nat))
    (h : apply_ignore_rules p level = some x) :
    normRows level ((p, e) :: rest) = (x, e) :: normRows level rest := by
  simp [normRows, h]

theorem maxEndOf_cons_pos {p q : Str} (e : Nat) (rest : List (Str × Nat)) (h : p = q) :
    maxEndOf ((p, e) :: rest) q = omax (some e) (maxEndOf rest q) := by
  simp [maxEndOf, h]

theorem maxEndOf_cons_neg {p q : Str} (e : Nat) (rest : List (Str × Nat)) (h : ¬ p = q) :
    maxEndOf ((p, e) :: rest) q = maxEndOf rest q := by
  simp [maxEndOf, h]

theorem maxEndOf_normRows_updateMax (level : Nat) (p : Str) (e : Nat) (cid : Str) :
    ∀ m : List (Str × Nat),
      maxEndOf (normRows level (updateMax m p e)) cid
        = if apply_ignore_rules p level = some cid
          then omax (some e) (maxEndOf (normRows level m) cid)
          else maxEndOf (normRows level m) cid := by
  intro m
  induction m with
  | nil =>
    rcases hn : apply_ignore_rules p level with _ | id'
    · rw [if_neg (show ¬ ((none : Option Str) = some cid) by simp)]
      show maxEndOf (normRows level [(p, e)]) cid = maxEndOf (normRows level []) cid
      rw [normRows_cons_none e [] hn]
    · by_cases hid : id' = cid
      · rw [if_pos (show some id' = some cid by rw [hid])]
        show maxEndOf (normRows level [(p, e)]) cid
          = omax (some e) (maxEndOf (normRows level []) cid)
        rw [normRows_cons_some e [] hn, maxEndOf_cons_pos e _ hid]
      · rw [if_neg (show ¬ (some id' = some cid) from fun hc => hid (Option.some.inj hc))]
        show maxEndOf (normRows level [(p, e)]) cid = maxEndOf (normRows level []) cid
        rw [normRows_cons_some e [] hn, maxEndOf_cons_neg e _ hid]
  | cons kv rest ih =>
    obtain ⟨q, m0⟩ := kv
    by_cases hq : q = p
    · subst hq
      have hup : updateMax ((q, m0) :: rest) q e = (q, max m0 e) :: rest := by
        simp [updateMax]
      rw [hup]
      rcases hn : apply_ignore_rules q level with _ | id'
      · rw [if_neg (show ¬ ((none : Option Str) = some cid) by simp)]
        rw [normRows_cons_none (max m0 e) rest hn, normRows_cons_none m0 rest hn]
      · by_cases hid : id' = cid
        · rw [if_pos (show some id' = some cid by rw [hid])]
          rw [normRows_cons_some (max m0 e) rest hn, normRows_cons_some m0 rest hn]
          rw [maxEndOf_cons_pos _ _ hid, maxEndOf_cons_pos _ _ hid]
          cases hR : maxEndOf (normRows level rest) cid <;>
            simp [omax, Nat.max_comm, Nat.max_assoc, Nat.max_left_comm]
        · rw [if_neg (show ¬ (some id' = some cid) from fun hc => hid (Option.some.inj hc))]
          rw [normRows_cons_some (max m0 e) rest hn, normRows_cons_some m0 rest hn]
          rw [maxEndOf_cons_neg _ _ hid, maxEndOf_cons_neg _ _ hid]
    · have hup : updateMax ((q, m0) :: rest) p e = (q, m0) :: updateMax rest p e := by
        simp [updateMax, hq]
      rw [hup]
      rcases hn : apply_ignore_rules q level with _ | id'
      · rw [normRows_cons_none m0 (updateMax rest p e) hn, normRows_cons_none m0 rest hn]
        exact ih
      · by_cases hid : id' = cid
        · subst hid
          rw [normRows_cons_some m0 (updateMax rest p e) hn, normRows_cons_some m0 rest hn]
          rw [maxEndOf_cons_pos m0 _ rfl, maxEndOf_cons_pos m0 _ rfl]
          rw [ih]
          split_ifs with hC
          · rw [omax_left_comm]
          · rfl
        · rw [normRows_cons_some m0 (updateMax rest p e) hn, normRows_cons_some m0 rest hn]
          rw [maxEndOf_cons_neg m0 _ hid, maxEndOf_cons_neg m0 _ hid]
          exact ih

theorem maxEndOf_normRows_fold (level : Nat) (cid : Str) (rows : List (Str × Nat)) :
    ∀ m : List (Str × Nat),
      maxEndOf (normRows level (rows.foldl (fun m pe => updateMax m pe.1 pe.2) m)) cid
        = omax (maxEndOf (normRows level m) cid) (maxEndOf (normRows level rows) cid) := by
  induction rows with
  | nil =>
    intro m
    exact (omax_none_right (maxEndOf (normRows level m) cid)).symm
  | cons pe rest ih =>
    intro m
    obtain ⟨p, e⟩ := pe
    rw [List.foldl_cons]
    rw [ih (updateMax m p e)]
    rw [maxEndOf_normRows_updateMax]
    rcases hn : apply_ignore_rules p level with _ | id'
    · rw [if_neg (show ¬ ((none : Option Str) = some cid) by simp)]
      rw [normRows_cons_none e rest hn]
    · by_cases hid : id' = cid
      · rw [if_pos (show some id' = some cid by rw [hid])]
        rw [normRows_cons_some e rest hn, maxEndOf_cons_pos e _ hid]
        rw [omax_comm (some e) (maxEndOf (normRows level m) cid), omax_assoc]
      · rw [if_neg (show ¬ (some id' = some cid) from fun hc => hid (Option.some.inj hc))]
        rw [normRows_cons_some e rest hn, maxEndOf_cons_neg e _ hid]


theorem rowOf_eq_rowOfLast (l : Str)
    (h : ¬ (rustTrim l).isEmpty → (splitTab l).length = 4) :
    rowOf l = rowOfLast l := by
  by_cases ht : (rustTrim l).isEmpty
  · simp [rowOf, rowOfLast, ht]
  · have h4 := h ht
    simp [rowOf, rowOfLast, ht, h4]

theorem refRows_eq_refRowsLast (lines : List Str)
    (h : ∀ l ∈ lines, ¬ (rustTrim l).isEmpty → (splitTab l).length = 4) :
    refRows lines = refRowsLast lines := by
  cases lines with
  | nil => rfl
  | cons l0 rest =>
    simp only [refRows, refRowsLast]
    rw [rowOf_eq_rowOfLast l0 (h l0 (by simp))]
    congr 1
    apply List.filterMap_congr
    intro x hx
    rw [rowOf_eq_rowOfLast x (h x (List.mem_cons_of_mem _ hx))]

theorem updateMax_keys (p : Str) (e : Nat) :
    ∀ m : List (Str × Nat),
      (updateMax m p e).map Prod.fst
        = if p ∈ m.map Prod.fst then m.map Prod.fst else m.map Prod.fst ++ [p] := by
  intro m
  induction m with
  | nil => simp [updateMax]
  | cons kv rest ih =>
    obtain ⟨q, m0⟩ := kv
    by_cases hq : q = p
    · subst hq
      simp [updateMax]
    · have hq' : ¬ p = q := fun hc => hq hc.symm
      simp only [updateMax, if_neg hq, List.map_cons, List.mem_cons]
      rw [ih]
      by_cases hm : p ∈ rest.map Prod.fst
      · rw [if_pos hm, if_pos (Or.inr hm)]
      · rw [if_neg hm, if_neg (by rintro (h | h); exact hq' h; exact hm h)]
        rfl

theorem updateMax_keys_nodup (p : Str) (e : Nat) (m : List (Str × Nat))
    (h : (m.map Prod.fst).Nodup) : ((updateMax m p e).map Prod.fst).Nodup := by
  rw [updateMax_keys]
  split_ifs with hm
  · exact h
  · rw [List.nodup_append]
    exact ⟨h, List.nodup_singleton p, by
      intro a ha hb
      rw [List.mem_singleton] at hb
      subst hb
      exact hm ha⟩

theorem foldl_updateMax_nodup (rows : List (Str × Nat)) :
    ∀ m : List (Str × Nat), (m.map Prod.fst).Nodup →
      (((rows.foldl (fun m pe => updateMax m pe.1 pe.2) m)).map Prod.fst).Nodup := by
  induction rows with
  | nil => intro m h; exact h
  | cons pe rest ih =>
    intro m h
    rw [List.foldl_cons]
    exact ih (updateMax m pe.1 pe.2) (updateMax_keys_nodup pe.1 pe.2 m h)

/-- C8 (amended): for a 4-column reference table (every nonblank line splits
into exactly 4 tab fields), the contig synthesis of `header_run` produces a
map with pairwise-distinct canonical ids whose entry at any id equals the
maximum end coordinate over all rows whose (last-column) path normalizes to
that id at the configured level, and emits exactly one `##contig` line per
entry, with the length attribute omitted exactly when the maximum is 0. -/
theorem C8_contig_synthesis_amended (lines : List Str) (level : Nat)
    (h4 : ∀ l ∈ lines, ¬ (rustTrim l).isEmpty → (splitTab l).length = 4) :
    ((contigNormMap (parse_reference_tsv lines) level).map Prod.fst).Nodup
    ∧ (∀ cid : Str,
        lookupS (contigNormMap (parse_reference_tsv lines) level) cid
          = specContigMax lines level cid)
    ∧ contigDecls (parse_reference_tsv lines) level
        = (contigNormMap (parse_reference_tsv lines) level).map
            (fun pr => specDecl pr.1 pr.2) := by
  refine ⟨?_, ?_, ?_⟩
  · rw [contigNormMap_eq]
    exact foldl_updateMax_nodup _ [] (by simp)
  · intro cid
    rw [contigNormMap_eq, foldl_updateMax_lookupS]
    rw [show lookupS [] cid = none from rfl, omax_none_left]
    rw [parse_reference_tsv_rows, maxEndOf_normRows_fold]
    rw [show maxEndOf (normRows level []) cid = none from rfl, omax_none_left]
    rw [refRows_eq_refRowsLast lines h4]
    rfl
  · rfl


/-- C8 counterexample: on the 6-column row
`10 TAB 0 TAB 5 TAB ACGTG TAB 5 TAB sample#0#chr1` the parser keys the contig
map by the 4th column (the sequence `ACGTG`), not by the last column (the
path), so at level 0 the emitted contig is `##contig=<ID=ACGTG,length=5>`
while the claimed grouping by the path column would yield the id
`sample#0#chr1`. -/
theorem C8_counterexample :
    lookupS (contigNormMap
        (parse_reference_tsv [("10\t0\t5\tACGTG\t5\tsample#0#chr1").data]) 0)
        (("ACGTG").data) = some 5
    ∧ specContigMax [("10\t0\t5\tACGTG\t5\tsample#0#chr1").data] 0
        (("ACGTG").data) = none
    ∧ lookupS (contigNormMap
        (parse_reference_tsv [("10\t0\t5\tACGTG\t5\tsample#0#chr1").data]) 0)
        (("sample#0#chr1").data) = none
    ∧ specContigMax [("10\t0\t5\tACGTG\t5\tsample#0#chr1").data] 0
        (("sample#0#chr1").data) = some 5
    ∧ contigDecls
        (parse_reference_tsv [("10\t0\t5\tACGTG\t5\tsample#0#chr1").data]) 0
        = [("##contig=<ID=ACGTG,length=5>").data] := by
  refine ⟨rfl, rfl, rfl, rfl, rfl⟩

theorem C8_witness :
    (∀ l ∈ [("node\tstart\tend\tpath").data, ("10\t0\t5\tsample#0#chr1").data],
        ¬ (rustTrim l).isEmpty → (splitTab l).length = 4)
    ∧ lookupS (contigNormMap
        (parse_reference_tsv
          [("node\tstart\tend\tpath").data, ("10\t0\t5\tsample#0#chr1").data]) 4)
        (("chr1").data)
      = specContigMax
          [("node\tstart\tend\tpath").data, ("10\t0\t5\tsample#0#chr1").data] 4
          (("chr1").data)
    ∧ specContigMax
        [("node\tstart\tend\tpath").data, ("10\t0\t5\tsample#0#chr1").data] 4
        (("chr1").data) = some 5 :=
  ⟨by decide,
   (C8_contig_synthesis_amended
      [("node\tstart\tend\tpath").data, ("10\t0\t5\tsample#0#chr1").data] 4
      (by decide)).2.1 (("chr1").data),
   rfl⟩


end Header
